import Mathlib

/-!
# RLAlgebra: vector algebra, arena collision solver and tick integrator

A shallow embedding of `algebra.h` / `algebra.cpp`.

Scalars.  The C++ code computes on `double`.  The embedding is written once over an
arbitrary linearly ordered field `K` that carries a square-root operation
(`HasSqrt.sqrt`, the counterpart of `std::sqrt`); arithmetic is exact, rounding is not
modelled.  Nothing is assumed about `sqrt` globally: a theorem that needs the square
root to be exact at some argument says so with `SqrtExact`.  Concrete evaluations are
carried out over `ℚ` (every finite `double` is a rational number), with a square root
that is exact on squares of rationals.
-/

namespace RLAlgebra

/-! ## Scalars -/

/-- Square root on the scalar type: the counterpart of `std::sqrt`. -/
class HasSqrt (K : Type) where
  /-- The square-root operation. -/
  sqrt : K → K

/-- Square root on the rationals, computed on numerator and denominator; it is exact
on every square of a rational number, and only there does it agree with `std::sqrt`: the
evaluations below use it at squares only. -/
instance instHasSqrtRat : HasSqrt ℚ where
  sqrt q := (Nat.sqrt q.num.toNat : ℚ) / (Nat.sqrt q.den : ℚ)

/-- The square root is exact at `s`: `sqrt s` is the non-negative root of `s`. -/
def SqrtExact {K : Type} [LinearOrderedField K] [HasSqrt K] (s : K) : Prop :=
  0 ≤ HasSqrt.sqrt s ∧ HasSqrt.sqrt s * HasSqrt.sqrt s = s

/-! ## `Vec3` (algebra.h:11-85) -/

/-- The struct `Vec3<T>`: three coordinates. -/
@[ext]
structure Vec3 (K : Type) where
  x : K
  y : K
  z : K
  deriving DecidableEq

namespace Vec3

variable {K : Type} [LinearOrderedField K] [HasSqrt K]

/-- The default constructor `Vec3()`: all coordinates zero. -/
def zero : Vec3 K := ⟨0, 0, 0⟩

/-- The method `operator-(const T0&)`. -/
def sub (a v : Vec3 K) : Vec3 K := ⟨a.x - v.x, a.y - v.y, a.z - v.z⟩

/-- The method `operator+(const T0&)`. -/
def add (a v : Vec3 K) : Vec3 K := ⟨a.x + v.x, a.y + v.y, a.z + v.z⟩

/-- The method `operator*(T0&)`: the dot product. -/
def dot (a v : Vec3 K) : K := a.x * v.x + a.y * v.y + a.z * v.z

/-- The method `operator/(double)`, for a divisor other than zero.  At the divisor 0 a
field returns 0 where IEEE arithmetic returns an infinity or NaN: that case is modelled
by `Vec3.divIeee`, and every statement about `div` below is made at a non-zero divisor. -/
def div (a : Vec3 K) (v : K) : Vec3 K := ⟨a.x / v, a.y / v, a.z / v⟩

/-- The method `operator*(double)`. -/
def mul (a : Vec3 K) (v : K) : Vec3 K := ⟨a.x * v, a.y * v, a.z * v⟩

/-- The method `distanceTo`. -/
def distanceTo (a s : Vec3 K) : K :=
  HasSqrt.sqrt ((a.x - s.x) * (a.x - s.x) + (a.y - s.y) * (a.y - s.y)
    + (a.z - s.z) * (a.z - s.z))

/-- The method `norm`. -/
def norm (a : Vec3 K) : K := HasSqrt.sqrt (a.x * a.x + a.y * a.y + a.z * a.z)

/-- The method `maximize`. -/
def maximize (a : Vec3 K) : Vec3 K := ⟨a.x * 1000, a.y * 1000, a.z * 1000⟩

/-- The method `normalize`: `*this / this->norm()`. -/
def normalize (a : Vec3 K) : Vec3 K := a.div a.norm

/-- Modelled from the spec: `Vec3::clamp`, which `Algebra::move` calls but `algebra.h`
does not define.  The spec's motion step "clamp[s] current velocity to a fixed maximum
entity speed": a vector longer than `m` is scaled down to norm `m`, any other vector is
returned unchanged. -/
def clamp (a : Vec3 K) (m : K) : Vec3 K :=
  if m < a.norm then a.normalize.mul m else a

end Vec3

/-! ## Records of the simulator and of the predictor -/

/-- The fields of `model::Arena` that the solver reads. -/
structure Arena (K : Type) where
  width : K
  height : K
  depth : K
  goal_width : K
  goal_height : K
  goal_top_radius : K
  goal_side_radius : K

/-- The fields of `model::Rules` that the code reads. -/
structure Rules (K : Type) where
  arena : Arena K
  BALL_ARENA_E : K
  TICKS_PER_SECOND : K

/-- The constants of `consts.h` that `Algebra::move` reads. -/
structure Consts (K : Type) where
  MAX_ENTITY_SPEED : K
  GRAVITY : K

/-- The fields of `model::Ball`. -/
structure Ball (K : Type) where
  x : K
  y : K
  z : K
  velocity_x : K
  velocity_y : K
  velocity_z : K
  radius : K

/-- The struct `Prediction` (algebra.h:117-121). -/
@[ext]
structure Prediction (K : Type) where
  position : Vec3 K
  velocity : Vec3 K
  radius : K

/-- The struct `CollideInformation<T, D>` (algebra.h:123-145), at `T = D = double`
(the typedef `CI`). -/
@[ext]
structure CI (K : Type) where
  distance : K
  normal : Vec3 K

namespace CI

variable {K : Type} [LinearOrderedField K]

/-- The call `std::min(a, b)` on `CI`: `b` when `b < a` (that is, by `operator<`,
when `b.distance < a.distance`), otherwise `a`. -/
def min (a b : CI K) : CI K := if b.distance < a.distance then b else a

end CI

/-! ## The arena collision solver (algebra.h:189-229) -/

namespace Algebra

variable {K : Type} [LinearOrderedField K] [HasSqrt K]

/-- The specialisation `location(const Prediction&)` (algebra.cpp:28-31). -/
def location (p : Prediction K) : Vec3 K := p.position

/-- The specialisation `velocity(const Prediction&)` (algebra.cpp:33-36). -/
def velocity (p : Prediction K) : Vec3 K := p.velocity

/-- The method `CIToPlane`. -/
def CIToPlane (p planeP normalP : Vec3 K) : CI K :=
  ⟨(p.sub planeP).dot normalP, normalP⟩

/-- The method `CIToArenaQ`: the solver on the folded point. -/
def CIToArenaQ (rules : Rules K) (p : Vec3 K) : CI K :=
  let c := CIToPlane p Vec3.zero ⟨0, 1, 0⟩
  let c := CI.min c (CIToPlane p ⟨0, rules.arena.height, 0⟩ ⟨0, -1, 0⟩)
  let c := CI.min c (CIToPlane p ⟨rules.arena.width / 2, 0, 0⟩ ⟨-1, 0, 0⟩)
  let t : Vec3 K := { p with z := 0 }
  let t := t.sub ⟨rules.arena.goal_width / 2 - rules.arena.goal_top_radius,
                  rules.arena.goal_height - rules.arena.goal_top_radius, 0⟩
  if p.x ≥ rules.arena.goal_width / 2 + rules.arena.goal_side_radius ∨
      p.y ≥ rules.arena.goal_height + rules.arena.goal_side_radius ∨
      (t.x > 0 ∧ t.y > 0 ∧
        t.norm ≥ rules.arena.goal_top_radius + rules.arena.goal_side_radius) then
    CI.min c (CIToPlane p ⟨0, 0, rules.arena.depth / 2⟩ ⟨0, 0, -1⟩)
  else c

/-- The method `CIToArena`: fold into the quadrant, solve, un-fold the normal. -/
def CIToArena (rules : Rules K) (p : Vec3 K) : CI K :=
  let isXNegative := p.x < 0
  let isZNegative := p.z < 0
  let p0 : Vec3 K := { p with x := |p.x|, z := |p.z| }
  let c := CIToArenaQ rules p0
  let c : CI K := if isXNegative then { c with normal := { c.normal with x := -c.normal.x } } else c
  let c : CI K := if isZNegative then { c with normal := { c.normal with z := -c.normal.z } } else c
  c

/-! ## The tick integrator (algebra.cpp:38-77) -/

/-- The method `move` (algebra.cpp:38-45).  `p.position += p.velocity*dt` is the
coordinate-wise sum. -/
def move (consts : Consts K) (p : Prediction K) (_b : Ball K) (dt : K) : Prediction K :=
  let p : Prediction K := { p with velocity := (velocity p).clamp consts.MAX_ENTITY_SPEED }
  let p : Prediction K := { p with position := p.position.add (p.velocity.mul dt) }
  let p : Prediction K :=
    { p with position := { p.position with y := p.position.y - consts.GRAVITY * dt * dt / 2 } }
  let p : Prediction K :=
    { p with velocity := { p.velocity with y := p.velocity.y - consts.GRAVITY * dt } }
  p

/-- The method `collideArena` (algebra.cpp:62-77).  The solver is queried at the
prediction's coordinates, which a `Prediction` exposes through `location`; the two
writes to `std::cout` are not modelled. -/
def collideArena (rules : Rules K) (p : Prediction K) (b : Ball K) : Prediction K :=
  let ci := CIToArena rules (location p)
  let penetration := b.radius - ci.distance
  if penetration > 0 then
    let p1 : Prediction K := { p with position := (location p).add (ci.normal.mul penetration) }
    let v := (velocity p1).dot ci.normal
    if v < 0 then
      { p1 with velocity := (velocity p1).sub (ci.normal.mul ((1 + rules.BALL_ARENA_E) * v)) }
    else p1
  else p

end Algebra

/-! ## Robots, game snapshot, action (algebra.cpp:20-26, 80-107) -/

/-- The fields of `model::Robot` that the code reads. -/
structure Robot (K : Type) where
  id : Int
  is_teammate : Bool
  x : K
  y : K
  z : K

/-- The fields of `model::Game` that the code reads. -/
structure Game (K : Type) where
  current_tick : Int
  robots : List (Robot K)
  ball : Ball K

/-- The fields of `model::Action` that the code writes. -/
@[ext]
structure Action (K : Type) where
  target_velocity_x : K
  target_velocity_y : K
  target_velocity_z : K
  jump_speed : K

/-- What a call of a C++ function produces: a returned value, an explicitly signalled
failure (an exception or an error result), or undefined behaviour (control runs off the
end of a value-returning function, an index outside a `std::vector`, a division of
integers by zero). -/
inductive Outcome (α : Type) where
  | value (a : α)
  | failure
  | undefined

/-! ## Division by a zero norm (algebra.h:57-59, 82-84) -/

/-- The value of a `double` quotient: a finite number, an infinity, or NaN. -/
inductive IeeeValue (K : Type) where
  | finite (x : K)
  | posInf
  | negInf
  | nan
  deriving DecidableEq

section Ieee

variable {K : Type} [LinearOrderedField K] [HasSqrt K]

/-- The quotient `x / v` of two `double`s as IEEE arithmetic defines it, for a divisor
that is non-zero or `+0` (the zero that `norm` returns): a finite quotient for `v ≠ 0`;
for `v = 0`, `+inf` when `x > 0`, `-inf` when `x < 0` and NaN when `x = 0`. -/
def ieeeDiv (x v : K) : IeeeValue K :=
  if v ≠ 0 then IeeeValue.finite (x / v)
  else if 0 < x then IeeeValue.posInf
  else if x < 0 then IeeeValue.negInf
  else IeeeValue.nan

/-- The method `operator/(double)` with the IEEE value of each quotient. -/
def Vec3.divIeee (a : Vec3 K) (v : K) : Vec3 (IeeeValue K) :=
  ⟨ieeeDiv a.x v, ieeeDiv a.y v, ieeeDiv a.z v⟩

/-- The method `normalize`, `*this / this->norm()`, as a call with its outcome: the body
has no check, no `throw` and no error result, it returns the quotient whatever the
norm. -/
def Vec3.normalizeIeee (a : Vec3 K) : Outcome (Vec3 (IeeeValue K)) :=
  Outcome.value (a.divIeee a.norm)

end Ieee

namespace Algebra

variable {K : Type} [LinearOrderedField K] [HasSqrt K]

/-- The template `location` (algebra.h:94-99) at a `Robot`. -/
def locationRobot (t : Robot K) : Vec3 K := ⟨t.x, t.y, t.z⟩

/-- The template `location` (algebra.h:94-99) at a `Ball`. -/
def locationBall (t : Ball K) : Vec3 K := ⟨t.x, t.y, t.z⟩

/-- The template `velocity` (algebra.h:101-106) at a `Ball`. -/
def velocityBall (t : Ball K) : Vec3 K := ⟨t.velocity_x, t.velocity_y, t.velocity_z⟩

/-- The loop of `mate` over the robots still to visit: the first robot with
`is_teammate` set and an id other than `me.id` is returned; when the robots are
exhausted, control reaches the end of the function without a `return`. -/
def mateFrom (me : Robot K) : List (Robot K) → Outcome (Robot K)
  | [] => Outcome.undefined
  | r :: rs =>
    if r.is_teammate = true ∧ r.id ≠ me.id then Outcome.value r else mateFrom me rs

/-- The method `mate` (algebra.cpp:20-26). -/
def mate (me : Robot K) (game : Game K) : Outcome (Robot K) := mateFrom me game.robots

/-- The method `distanceToBall` (algebra.h:166-169), at a `Robot`. -/
def distanceToBall (game : Game K) (s : Robot K) : K :=
  (locationBall game.ball).distanceTo (locationRobot s)

/-- The method `isICloserToBall` (algebra.cpp:81-83); it produces a value only when
`mate` does. -/
def isICloserToBall (me : Robot K) (game : Game K) : Outcome Bool :=
  match mate me game with
  | Outcome.value r => Outcome.value (decide (distanceToBall game me ≤ distanceToBall game r))
  | Outcome.failure => Outcome.failure
  | Outcome.undefined => Outcome.undefined

/-- The method `setVelocity` (algebra.cpp:85-89). -/
def setVelocity (action : Action K) (v : Vec3 K) : Action K :=
  { action with target_velocity_x := v.x, target_velocity_y := v.y, target_velocity_z := v.z }

/-- The method `goTo` (algebra.cpp:91-93). -/
def goTo (me : Robot K) (action : Action K) (d : Vec3 K) : Action K :=
  setVelocity action ((d.sub (locationRobot me)).maximize)

/-- The method `toBallGroundVector` (algebra.cpp:99-103). -/
def toBallGroundVector (me : Robot K) (game : Game K) : Vec3 K :=
  let v := (locationBall game.ball).sub (locationRobot me)
  { v with y := 0 }

/-- The method `goToBall` (algebra.cpp:105-107). -/
def goToBall (me : Robot K) (game : Game K) (action : Action K) : Action K :=
  setVelocity action (toBallGroundVector me game).maximize

/-- The method `predictBall` (algebra.cpp:151-180), as a function of the game snapshot
and the prediction buffer that returns both.  `TICK_DT` is a constant of `consts.h`,
taken as an integer parameter (`ct` is an `int` computed from it by a division that
truncates); `radius0` stands for the `radius` of the local `Prediction p`, which the code
never initialises.  `ticksToCt` is computed and not used; the write to `std::cout` is not
modelled.  `predictions[ct]` is defined only for an index inside the vector. -/
def predictBall (consts : Consts K) (TICK_DT : Int) (rules : Rules K) (game : Game K)
    (predictions : List (Prediction K)) (dt _time radius0 : K) :
    Outcome (Game K × List (Prediction K)) :=
  if TICK_DT = 0 then Outcome.undefined
  else
    let b := game.ball
    let ct : Int := Int.tdiv game.current_tick TICK_DT + 1
    let p : Prediction K := ⟨locationBall b, velocityBall b, radius0⟩
    let p := move consts p b (dt * (TICK_DT : K) / rules.TICKS_PER_SECOND)
    let p := collideArena rules p b
    if 0 ≤ ct ∧ ct.toNat < predictions.length then
      Outcome.value (game, predictions.set ct.toNat p)
    else Outcome.undefined

end Algebra

/-! ## Auxiliary definitions for the statements and proofs -/

section Aux

variable {K : Type} [LinearOrderedField K] [HasSqrt K]

/-- The condition under which `CIToArenaQ` takes the back wall as a candidate. -/
def backWallCond (rules : Rules K) (p : Vec3 K) : Prop :=
  p.x ≥ rules.arena.goal_width / 2 + rules.arena.goal_side_radius ∨
    p.y ≥ rules.arena.goal_height + rules.arena.goal_side_radius ∨
    (p.x - (rules.arena.goal_width / 2 - rules.arena.goal_top_radius) > 0 ∧
      p.y - (rules.arena.goal_height - rules.arena.goal_top_radius) > 0 ∧
      (Vec3.mk (p.x - (rules.arena.goal_width / 2 - rules.arena.goal_top_radius))
          (p.y - (rules.arena.goal_height - rules.arena.goal_top_radius)) (0 - 0)).norm ≥
        rules.arena.goal_top_radius + rules.arena.goal_side_radius)

/-- The nearest of floor, ceiling and side wall, as `CIToArenaQ` computes it. -/
def nearest3 (rules : Rules K) (p : Vec3 K) : CI K :=
  CI.min (CI.min ⟨p.y, ⟨0, 1, 0⟩⟩ ⟨rules.arena.height - p.y, ⟨0, -1, 0⟩⟩)
    ⟨rules.arena.width / 2 - p.x, ⟨-1, 0, 0⟩⟩

/-- The six boundary planes of the arena box, each as (point on the plane, normal
towards the interior): floor, ceiling, the two side walls, the two back walls. -/
def arenaPlanes (rules : Rules K) : List (Vec3 K × Vec3 K) :=
  [(Vec3.zero, ⟨0, 1, 0⟩),
   (⟨0, rules.arena.height, 0⟩, ⟨0, -1, 0⟩),
   (⟨rules.arena.width / 2, 0, 0⟩, ⟨-1, 0, 0⟩),
   (⟨-(rules.arena.width / 2), 0, 0⟩, ⟨1, 0, 0⟩),
   (⟨0, 0, rules.arena.depth / 2⟩, ⟨0, 0, -1⟩),
   (⟨0, 0, -(rules.arena.depth / 2)⟩, ⟨0, 0, 1⟩)]

/-- The squared Euclidean distance between two points. -/
def distSq (a s : Vec3 K) : K :=
  (a.x - s.x) * (a.x - s.x) + (a.y - s.y) * (a.y - s.y) + (a.z - s.z) * (a.z - s.z)

/-- The point `p` lies on the plane through `planeP` with normal `normalP`. -/
def onPlane (p planeP normalP : Vec3 K) : Prop := (p.sub planeP).dot normalP = 0

/-- The test of `mate`: a robot with `is_teammate` set and an id other than `me.id`. -/
def isMateOf (me : Robot K) (r : Robot K) : Bool := r.is_teammate && decide (r.id ≠ me.id)

end Aux

/-! ## Evaluation on concrete inputs -/

/-- An arena with the proportions of the simulator's default field. -/
def arena0 : Arena ℚ := ⟨60, 20, 80, 30, 10, 3, 1⟩

/-- Rules over `arena0` with restitution `7/10`. -/
def rules0 : Rules ℚ := ⟨arena0, 7 / 10, 60⟩

/-- The arena of the spec's symmetry scenario: width 40, depth 80, height 20, goal width
10, goal height 5 (the corner radii, which the scenario leaves open, are 1). -/
def arenaScenario : Arena ℚ := ⟨40, 20, 80, 10, 5, 1, 1⟩

/-- Rules over `arenaScenario`. -/
def rulesScenario : Rules ℚ := ⟨arenaScenario, 7 / 10, 60⟩

/-- An arena that is higher than it is deep: width 40, height 20, depth 2. -/
def arenaShallow : Arena ℚ := ⟨40, 20, 2, 10, 5, 1, 1⟩

/-- Rules over `arenaShallow`. -/
def rulesShallow : Rules ℚ := ⟨arenaShallow, 7 / 10, 60⟩

/-- The constants of the simulator: maximum entity speed 100, gravity 30. -/
def consts0 : Consts ℚ := ⟨100, 30⟩

/-- A ball of radius 2 one unit above the floor, moving down and sideways. -/
def ball0 : Ball ℚ := ⟨0, 1, 0, 3, -10, 0, 2⟩

/-- The prediction that starts at `ball0`. -/
def pred0 : Prediction ℚ := ⟨⟨0, 1, 0⟩, ⟨3, -10, 0⟩, 2⟩

/-- A prediction in mid-air whose speed, 200, is twice the maximum entity speed. -/
def predFast : Prediction ℚ := ⟨⟨0, 10, 0⟩, ⟨120, -160, 0⟩, 2⟩

/-- A prediction in mid-air falling at exactly the maximum entity speed. -/
def predMax : Prediction ℚ := ⟨⟨0, 10, 0⟩, ⟨0, -100, 0⟩, 2⟩

/-- A prediction one unit above the floor with velocity `(24, -10, 0)`, of norm 26. -/
def predBounce : Prediction ℚ := ⟨⟨0, 1, 0⟩, ⟨24, -10, 0⟩, 2⟩

/-- The robot under control, at distance 5 from `ball0`. -/
def me0 : Robot ℚ := ⟨1, true, 3, 1, 4⟩

/-- Its teammate, at distance 10 from `ball0`. -/
def mate0 : Robot ℚ := ⟨2, true, 6, 1, 8⟩

/-- An opponent robot. -/
def opp0 : Robot ℚ := ⟨3, false, 0, 1, 1⟩

/-- A snapshot at tick 7 with an opponent, `me0` and `mate0`. -/
def game0 : Game ℚ := ⟨7, [opp0, me0, mate0], ball0⟩

/-- A snapshot in which `me0` has no teammate. -/
def gameAlone : Game ℚ := ⟨7, [opp0, me0], ball0⟩

/-- An action with all fields zero. -/
def action0 : Action ℚ := ⟨0, 0, 0, 0⟩

/-- A prediction buffer with five entries. -/
def buffer0 : List (Prediction ℚ) := [pred0, pred0, predFast, predMax, pred0]

/-! ## Auxiliary lemmas -/

section Lemmas

/-- The rational square root of a square `q * q`, `q ≥ 0`, is `q`. -/
theorem sqrt_rat_mul_self (q : ℚ) (h : 0 ≤ q) : HasSqrt.sqrt (q * q) = q := by
  show ((Nat.sqrt (q * q).num.toNat : ℕ) : ℚ) / ((Nat.sqrt (q * q).den : ℕ) : ℚ) = q
  rw [Rat.mul_self_num, Rat.mul_self_den, Nat.sqrt_eq]
  have hn : 0 ≤ q.num := Rat.num_nonneg.mpr h
  have e : (q.num * q.num).toNat = q.num.toNat * q.num.toNat := by
    apply Int.ofNat.inj
    simp only [Int.ofNat_eq_coe, Nat.cast_mul, Int.toNat_of_nonneg hn,
      Int.toNat_of_nonneg (mul_nonneg hn hn)]
  rw [e, Nat.sqrt_eq]
  have : ((q.num.toNat : ℕ) : ℚ) = (q.num : ℚ) := by
    rw [← Int.cast_natCast, Int.toNat_of_nonneg hn]
  rw [this]
  exact Rat.num_div_den q

/-- Over the reals `Real.sqrt` is exact at every non-negative argument, in particular
at every sum of squares: there the hypotheses `SqrtExact` of the theorems below hold. -/
theorem real_sqrt_exact (s : ℝ) (h : 0 ≤ s) :
    0 ≤ Real.sqrt s ∧ Real.sqrt s * Real.sqrt s = s :=
  ⟨Real.sqrt_nonneg s, Real.mul_self_sqrt h⟩

/-- The rational square root is exact at the square of a non-negative rational. -/
theorem sqrtExact_rat_mul_self (q : ℚ) (h : 0 ≤ q) : SqrtExact (q * q) := by
  unfold SqrtExact
  rw [sqrt_rat_mul_self q h]
  exact ⟨h, rfl⟩


set_option linter.unusedSectionVars false

variable {K : Type} [LinearOrderedField K] [HasSqrt K]

theorem ci_min_distance (a b : CI K) : (CI.min a b).distance = min a.distance b.distance := by
  unfold CI.min
  split_ifs with h
  · exact (min_eq_right h.le).symm
  · exact (min_eq_left (not_lt.mp h)).symm

theorem ci_min_cases (a b : CI K) : CI.min a b = a ∨ CI.min a b = b := by
  unfold CI.min
  split_ifs
  · exact Or.inr rfl
  · exact Or.inl rfl

theorem ciToPlane_floor (p : Vec3 K) :
    Algebra.CIToPlane p Vec3.zero ⟨0, 1, 0⟩ = ⟨p.y, ⟨0, 1, 0⟩⟩ := by
  simp [Algebra.CIToPlane, Vec3.sub, Vec3.dot, Vec3.zero]

theorem ciToPlane_ceiling (p : Vec3 K) (h : K) :
    Algebra.CIToPlane p ⟨0, h, 0⟩ ⟨0, -1, 0⟩ = ⟨h - p.y, ⟨0, -1, 0⟩⟩ := by
  simp [Algebra.CIToPlane, Vec3.sub, Vec3.dot]

theorem ciToPlane_side (p : Vec3 K) (w : K) :
    Algebra.CIToPlane p ⟨w, 0, 0⟩ ⟨-1, 0, 0⟩ = ⟨w - p.x, ⟨-1, 0, 0⟩⟩ := by
  simp [Algebra.CIToPlane, Vec3.sub, Vec3.dot]

theorem ciToPlane_back (p : Vec3 K) (d : K) :
    Algebra.CIToPlane p ⟨0, 0, d⟩ ⟨0, 0, -1⟩ = ⟨d - p.z, ⟨0, 0, -1⟩⟩ := by
  simp [Algebra.CIToPlane, Vec3.sub, Vec3.dot]

theorem ciToArenaQ_of_cond (rules : Rules K) (p : Vec3 K) (h : backWallCond rules p) :
    Algebra.CIToArenaQ rules p =
      CI.min (nearest3 rules p) ⟨rules.arena.depth / 2 - p.z, ⟨0, 0, -1⟩⟩ := by
  unfold Algebra.CIToArenaQ
  simp only [ciToPlane_floor, ciToPlane_ceiling, ciToPlane_side, ciToPlane_back, Vec3.sub]
  exact if_pos h

theorem ciToArenaQ_of_not_cond (rules : Rules K) (p : Vec3 K) (h : ¬ backWallCond rules p) :
    Algebra.CIToArenaQ rules p = nearest3 rules p := by
  unfold Algebra.CIToArenaQ
  simp only [ciToPlane_floor, ciToPlane_ceiling, ciToPlane_side, ciToPlane_back, Vec3.sub]
  exact if_neg h

theorem nearest3_distance (rules : Rules K) (p : Vec3 K) :
    (nearest3 rules p).distance =
      min (min p.y (rules.arena.height - p.y)) (rules.arena.width / 2 - p.x) := by
  simp only [nearest3, ci_min_distance]

theorem nearest3_cases (rules : Rules K) (p : Vec3 K) :
    nearest3 rules p = ⟨p.y, ⟨0, 1, 0⟩⟩ ∨
      nearest3 rules p = ⟨rules.arena.height - p.y, ⟨0, -1, 0⟩⟩ ∨
      nearest3 rules p = ⟨rules.arena.width / 2 - p.x, ⟨-1, 0, 0⟩⟩ := by
  unfold nearest3
  rcases ci_min_cases (CI.min ⟨p.y, ⟨0, 1, 0⟩⟩ ⟨rules.arena.height - p.y, ⟨0, -1, 0⟩⟩)
      ⟨rules.arena.width / 2 - p.x, ⟨-1, 0, 0⟩⟩ with h | h
  · rw [h]
    rcases ci_min_cases (⟨p.y, ⟨0, 1, 0⟩⟩ : CI K) ⟨rules.arena.height - p.y, ⟨0, -1, 0⟩⟩
      with h1 | h1
    · exact Or.inl h1
    · exact Or.inr (Or.inl h1)
  · exact Or.inr (Or.inr h)

/-- Closed form of `CIToArena`: the folded query, with the signs of the normal restored. -/
theorem ciToArena_eq (rules : Rules K) (p : Vec3 K) :
    Algebra.CIToArena rules p =
      ⟨(Algebra.CIToArenaQ rules ⟨|p.x|, p.y, |p.z|⟩).distance,
        ⟨if p.x < 0 then -(Algebra.CIToArenaQ rules ⟨|p.x|, p.y, |p.z|⟩).normal.x
           else (Algebra.CIToArenaQ rules ⟨|p.x|, p.y, |p.z|⟩).normal.x,
         (Algebra.CIToArenaQ rules ⟨|p.x|, p.y, |p.z|⟩).normal.y,
         if p.z < 0 then -(Algebra.CIToArenaQ rules ⟨|p.x|, p.y, |p.z|⟩).normal.z
           else (Algebra.CIToArenaQ rules ⟨|p.x|, p.y, |p.z|⟩).normal.z⟩⟩ := by
  by_cases hx : p.x < 0 <;> by_cases hz : p.z < 0 <;> simp [Algebra.CIToArena, hx, hz]

theorem nearest3_normal_z (rules : Rules K) (p : Vec3 K) :
    (nearest3 rules p).normal.z = 0 := by
  rcases nearest3_cases rules p with h | h | h <;> rw [h]

/-- A non-negative number is at most the exact root of its square plus a square. -/
theorem le_sqrt_add_sq {a b : K} (ha : 0 < a) (h : SqrtExact (a * a + b * b)) :
    a ≤ HasSqrt.sqrt (a * a + b * b) := by
  obtain ⟨h0, h1⟩ := h
  by_contra hlt
  push_neg at hlt
  nlinarith [mul_self_nonneg b, mul_self_nonneg (a - HasSqrt.sqrt (a * a + b * b))]

theorem ciToArenaQ_cases (rules : Rules K) (p : Vec3 K) :
    Algebra.CIToArenaQ rules p = ⟨p.y, ⟨0, 1, 0⟩⟩ ∨
      Algebra.CIToArenaQ rules p = ⟨rules.arena.height - p.y, ⟨0, -1, 0⟩⟩ ∨
      Algebra.CIToArenaQ rules p = ⟨rules.arena.width / 2 - p.x, ⟨-1, 0, 0⟩⟩ ∨
      Algebra.CIToArenaQ rules p = ⟨rules.arena.depth / 2 - p.z, ⟨0, 0, -1⟩⟩ := by
  by_cases hc : backWallCond rules p
  · rw [ciToArenaQ_of_cond rules p hc]
    rcases ci_min_cases (nearest3 rules p) ⟨rules.arena.depth / 2 - p.z, ⟨0, 0, -1⟩⟩
      with h | h
    · rw [h]
      rcases nearest3_cases rules p with h3 | h3 | h3
      · exact Or.inl h3
      · exact Or.inr (Or.inl h3)
      · exact Or.inr (Or.inr (Or.inl h3))
    · exact Or.inr (Or.inr (Or.inr h))
  · rw [ciToArenaQ_of_not_cond rules p hc]
    rcases nearest3_cases rules p with h3 | h3 | h3
    · exact Or.inl h3
    · exact Or.inr (Or.inl h3)
    · exact Or.inr (Or.inr (Or.inl h3))

/-- The collision info of `CIToArena` is the plane query against one of the six
boundary planes of the box, and the normal of that plane is a unit vector. -/
theorem ciToArena_plane (rules : Rules K) (p : Vec3 K) :
    ∃ pl ∈ arenaPlanes rules,
      Algebra.CIToPlane p pl.1 pl.2 = Algebra.CIToArena rules p ∧ pl.2.dot pl.2 = 1 := by
  rw [ciToArena_eq]
  rcases ciToArenaQ_cases rules ⟨|p.x|, p.y, |p.z|⟩ with h | h | h | h
  · refine ⟨(Vec3.zero, ⟨0, 1, 0⟩), by simp [arenaPlanes], ?_, by simp [Vec3.dot]⟩
    rw [h, ciToPlane_floor]
    simp
  · refine ⟨(⟨0, rules.arena.height, 0⟩, ⟨0, -1, 0⟩), by simp [arenaPlanes], ?_,
      by simp [Vec3.dot]⟩
    rw [h, ciToPlane_ceiling]
    simp
  · by_cases hx : p.x < 0
    · refine ⟨(⟨-(rules.arena.width / 2), 0, 0⟩, ⟨1, 0, 0⟩), by simp [arenaPlanes], ?_,
        by simp [Vec3.dot]⟩
      rw [h]
      simp [Algebra.CIToPlane, Vec3.sub, Vec3.dot, hx, abs_of_neg hx]
      ring
    · refine ⟨(⟨rules.arena.width / 2, 0, 0⟩, ⟨-1, 0, 0⟩), by simp [arenaPlanes], ?_,
        by simp [Vec3.dot]⟩
      rw [h, ciToPlane_side]
      simp [hx, abs_of_nonneg (not_lt.mp hx)]
  · by_cases hz : p.z < 0
    · refine ⟨(⟨0, 0, -(rules.arena.depth / 2)⟩, ⟨0, 0, 1⟩), by simp [arenaPlanes], ?_,
        by simp [Vec3.dot]⟩
      rw [h]
      simp [Algebra.CIToPlane, Vec3.sub, Vec3.dot, hz, abs_of_neg hz]
      ring
    · refine ⟨(⟨0, 0, rules.arena.depth / 2⟩, ⟨0, 0, -1⟩), by simp [arenaPlanes], ?_,
        by simp [Vec3.dot]⟩
      rw [h, ciToPlane_back]
      simp [hz, abs_of_nonneg (not_lt.mp hz)]

/-- The normal returned by `CIToArena` is a unit vector. -/
theorem ciToArena_normal_unit (rules : Rules K) (p : Vec3 K) :
    (Algebra.CIToArena rules p).normal.dot (Algebra.CIToArena rules p).normal = 1 := by
  obtain ⟨pl, _, h1, h2⟩ := ciToArena_plane rules p
  rw [← h1]
  exact h2

/-- Result of `collideArena` when the sphere penetrates the boundary. -/
theorem collideArena_of_pos (rules : Rules K) (p : Prediction K) (b : Ball K)
    (h : 0 < b.radius - (Algebra.CIToArena rules p.position).distance) :
    (Algebra.collideArena rules p b).position =
        p.position.add ((Algebra.CIToArena rules p.position).normal.mul
          (b.radius - (Algebra.CIToArena rules p.position).distance)) ∧
      (Algebra.collideArena rules p b).velocity =
        if p.velocity.dot (Algebra.CIToArena rules p.position).normal < 0 then
          p.velocity.sub ((Algebra.CIToArena rules p.position).normal.mul
            ((1 + rules.BALL_ARENA_E) *
              p.velocity.dot (Algebra.CIToArena rules p.position).normal))
        else p.velocity := by
  by_cases hv : p.velocity.dot (Algebra.CIToArena rules p.position).normal < 0 <;>
    simp [Algebra.collideArena, Algebra.location, Algebra.velocity, h, hv]

/-- Result of `collideArena` when the sphere does not penetrate the boundary. -/
theorem collideArena_of_not_pos (rules : Rules K) (p : Prediction K) (b : Ball K)
    (h : ¬ 0 < b.radius - (Algebra.CIToArena rules p.position).distance) :
    Algebra.collideArena rules p b = p := by
  simp [Algebra.collideArena, Algebra.location, h]

/-- The solver at the position of `pred0`: the floor, one unit away. -/
theorem ciToArena_pred0 : Algebra.CIToArena rules0 pred0.position = ⟨1, ⟨0, 1, 0⟩⟩ := by
  simp [Algebra.CIToArena, Algebra.CIToArenaQ, Algebra.CIToPlane, CI.min, Vec3.sub, Vec3.dot,
    Vec3.zero, rules0, arena0, pred0]
  norm_num

theorem clamp_of_lt (a : Vec3 K) (m : K) (h : m < a.norm) :
    a.clamp m = a.normalize.mul m := if_pos h

theorem clamp_of_not_lt (a : Vec3 K) (m : K) (h : ¬ m < a.norm) : a.clamp m = a := if_neg h

/-- A clamped vector that was longer than `m` has squared length `m * m`. -/
theorem clamp_dot_self_of_lt (a : Vec3 K) (m : K) (h1 : SqrtExact (a.dot a)) (hm : 0 ≤ m)
    (h : m < a.norm) : (a.clamp m).dot (a.clamp m) = m * m := by
  rw [clamp_of_lt a m h]
  obtain ⟨_, h1⟩ := h1
  have hn : a.norm ≠ 0 := (lt_of_le_of_lt hm h).ne.symm
  have h1 : a.norm * a.norm = a.x * a.x + a.y * a.y + a.z * a.z := h1
  simp only [Vec3.normalize, Vec3.div, Vec3.mul, Vec3.dot]
  field_simp
  rw [h1]
  ring

/-- The squared length of a clamped vector is at most `m * m`. -/
theorem clamp_dot_self_le (a : Vec3 K) (m : K) (h1 : SqrtExact (a.dot a)) (hm : 0 ≤ m) :
    (a.clamp m).dot (a.clamp m) ≤ m * m := by
  by_cases h : m < a.norm
  · exact (clamp_dot_self_of_lt a m h1 hm h).le
  · rw [clamp_of_not_lt a m h]
    have h2 : a.norm * a.norm = a.dot a := h1.2
    have h0 : 0 ≤ a.norm := h1.1
    rw [← h2]
    exact mul_self_le_mul_self h0 (not_lt.mp h)

theorem norm_le_of_dot_self_le (a : Vec3 K) (m : K) (hm : 0 ≤ m) (h : SqrtExact (a.dot a))
    (e : a.dot a ≤ m * m) : a.norm ≤ m := by
  have h2 : a.norm * a.norm = a.dot a := h.2
  have h0 : 0 ≤ a.norm := h.1
  rw [← h2] at e
  exact (mul_self_le_mul_self_iff h0 hm).mpr e

theorem norm_eq_of_dot_self_eq (a : Vec3 K) (m : K) (hm : 0 ≤ m) (h : SqrtExact (a.dot a))
    (e : a.dot a = m * m) : a.norm = m := by
  have h2 : a.norm * a.norm = a.dot a := h.2
  have h0 : 0 ≤ a.norm := h.1
  rw [← h2] at e
  exact (mul_self_inj h0 hm).mp e

/-- Closed form of `move`. -/
theorem move_eq (consts : Consts K) (p : Prediction K) (b : Ball K) (dt : K) :
    Algebra.move consts p b dt =
      ⟨⟨p.position.x + (p.velocity.clamp consts.MAX_ENTITY_SPEED).x * dt,
          p.position.y + (p.velocity.clamp consts.MAX_ENTITY_SPEED).y * dt
            - consts.GRAVITY * dt * dt / 2,
          p.position.z + (p.velocity.clamp consts.MAX_ENTITY_SPEED).z * dt⟩,
        ⟨(p.velocity.clamp consts.MAX_ENTITY_SPEED).x,
          (p.velocity.clamp consts.MAX_ENTITY_SPEED).y - consts.GRAVITY * dt,
          (p.velocity.clamp consts.MAX_ENTITY_SPEED).z⟩,
        p.radius⟩ := by
  simp [Algebra.move, Algebra.velocity, Vec3.add, Vec3.mul]

/-- The bounce does not lengthen the velocity when the restitution coefficient lies in
`[0, 1]`. -/
theorem collideArena_dot_self_le (rules : Rules K) (p : Prediction K) (b : Ball K)
    (hE0 : 0 ≤ rules.BALL_ARENA_E) (hE1 : rules.BALL_ARENA_E ≤ 1) :
    (Algebra.collideArena rules p b).velocity.dot (Algebra.collideArena rules p b).velocity
      ≤ p.velocity.dot p.velocity := by
  by_cases h : 0 < b.radius - (Algebra.CIToArena rules p.position).distance
  · rw [(collideArena_of_pos rules p b h).2]
    split_ifs with hv
    · have hu := ciToArena_normal_unit rules p.position
      simp only [Vec3.dot, Vec3.sub, Vec3.mul] at hu hv ⊢
      have key : ∀ vx vy vz nx ny nz e : K, nx * nx + ny * ny + nz * nz = 1 →
          (vx - nx * ((1 + e) * (vx * nx + vy * ny + vz * nz))) *
              (vx - nx * ((1 + e) * (vx * nx + vy * ny + vz * nz))) +
            (vy - ny * ((1 + e) * (vx * nx + vy * ny + vz * nz))) *
              (vy - ny * ((1 + e) * (vx * nx + vy * ny + vz * nz))) +
            (vz - nz * ((1 + e) * (vx * nx + vy * ny + vz * nz))) *
              (vz - nz * ((1 + e) * (vx * nx + vy * ny + vz * nz)))
          = vx * vx + vy * vy + vz * vz
            - (1 + e) * (1 - e) * ((vx * nx + vy * ny + vz * nz) * (vx * nx + vy * ny + vz * nz)) := by
        intro vx vy vz nx ny nz e hn
        linear_combination
          ((1 + e) * (1 + e) * ((vx * nx + vy * ny + vz * nz) * (vx * nx + vy * ny + vz * nz))) * hn
      rw [key _ _ _ _ _ _ _ hu]
      have h1 : 0 ≤ (1 + rules.BALL_ARENA_E) * (1 - rules.BALL_ARENA_E) :=
        mul_nonneg (by linarith) (by linarith)
      have h2 := mul_nonneg h1 (mul_self_nonneg
        (p.velocity.x * (Algebra.CIToArena rules p.position).normal.x +
          p.velocity.y * (Algebra.CIToArena rules p.position).normal.y +
          p.velocity.z * (Algebra.CIToArena rules p.position).normal.z))
      linarith
    · exact le_refl _
  · rw [collideArena_of_not_pos rules p b h]

/-- After `move` the squared speed is at most `(MAX_ENTITY_SPEED + GRAVITY * dt)²`. -/
theorem move_dot_self_le (consts : Consts K) (p : Prediction K) (b : Ball K) (dt : K)
    (hdt : 0 ≤ dt) (hg : 0 ≤ consts.GRAVITY) (hmax : 0 ≤ consts.MAX_ENTITY_SPEED)
    (h1 : SqrtExact (p.velocity.dot p.velocity)) :
    (Algebra.move consts p b dt).velocity.dot (Algebra.move consts p b dt).velocity ≤
      (consts.MAX_ENTITY_SPEED + consts.GRAVITY * dt) *
        (consts.MAX_ENTITY_SPEED + consts.GRAVITY * dt) := by
  have hc := clamp_dot_self_le p.velocity consts.MAX_ENTITY_SPEED h1 hmax
  rw [move_eq]
  simp only [Vec3.dot] at hc ⊢
  have hgd : 0 ≤ consts.GRAVITY * dt := mul_nonneg hg hdt
  have hy : -(p.velocity.clamp consts.MAX_ENTITY_SPEED).y ≤ consts.MAX_ENTITY_SPEED := by
    by_contra hlt
    push_neg at hlt
    nlinarith [mul_self_nonneg (p.velocity.clamp consts.MAX_ENTITY_SPEED).x,
      mul_self_nonneg (p.velocity.clamp consts.MAX_ENTITY_SPEED).z]
  nlinarith [mul_nonneg hgd (sub_nonneg.mpr hy)]

/-- The clamp at `predFast`: speed 200 is scaled down to 100. -/
theorem clamp_predFast : predFast.velocity.clamp consts0.MAX_ENTITY_SPEED = ⟨60, -80, 0⟩ := by
  have n : predFast.velocity.norm = 200 := by
    have e : predFast.velocity.x * predFast.velocity.x + predFast.velocity.y * predFast.velocity.y
        + predFast.velocity.z * predFast.velocity.z = (200 : ℚ) * 200 := by
      norm_num [predFast]
    unfold Vec3.norm
    rw [e]
    exact sqrt_rat_mul_self 200 (by norm_num)
  rw [clamp_of_lt _ _ (by rw [n]; norm_num [consts0])]
  simp only [Vec3.normalize, Vec3.div, Vec3.mul, n]
  norm_num [predFast, consts0]

/-- The clamp at `predMax`: speed 100 is not above the maximum and is kept. -/
theorem clamp_predMax :
    predMax.velocity.clamp consts0.MAX_ENTITY_SPEED = ⟨0, -100, 0⟩ := by
  have n : predMax.velocity.norm = 100 := by
    have e : predMax.velocity.x * predMax.velocity.x + predMax.velocity.y * predMax.velocity.y
        + predMax.velocity.z * predMax.velocity.z = (100 : ℚ) * 100 := by
      norm_num [predMax]
    unfold Vec3.norm
    rw [e]
    exact sqrt_rat_mul_self 100 (by norm_num)
  rw [clamp_of_not_lt _ _ (by rw [n]; norm_num [consts0])]
  rfl

/-- One integration step from `predMax` with `dt = 1/60`: the ball stays in mid-air and
its velocity becomes `(0, -201/2, 0)`. -/
theorem step_predMax :
    (Algebra.collideArena rules0 (Algebra.move consts0 predMax ball0 (1 / 60)) ball0).velocity
      = ⟨0, -(201 / 2), 0⟩ := by
  have hm : Algebra.move consts0 predMax ball0 (1 / 60) =
      ⟨⟨0, 1999 / 240, 0⟩, ⟨0, -(201 / 2), 0⟩, 2⟩ := by
    rw [move_eq, clamp_predMax]
    norm_num [predMax, consts0]
  rw [hm]
  have hc : Algebra.CIToArena rules0 (⟨0, 1999 / 240, 0⟩ : Vec3 ℚ) = ⟨1999 / 240, ⟨0, 1, 0⟩⟩ := by
    simp [Algebra.CIToArena, Algebra.CIToArenaQ, Algebra.CIToPlane, CI.min, Vec3.sub, Vec3.dot,
      Vec3.zero, rules0, arena0]
    norm_num
  rw [collideArena_of_not_pos]
  rw [hc]
  norm_num [ball0]

/-- On the plane `z = 0` of an arena that is at least as deep as it is high, the folded
solver never reports the back wall. -/
theorem ciToArenaQ_normal_z_of_z_eq_zero (rules : Rules K) (p : Vec3 K) (hz : p.z = 0)
    (hd : rules.arena.height ≤ rules.arena.depth) :
    (Algebra.CIToArenaQ rules p).normal.z = 0 := by
  by_cases hc : backWallCond rules p
  · rw [ciToArenaQ_of_cond rules p hc]
    have hn : ¬ (rules.arena.depth / 2 - p.z < (nearest3 rules p).distance) := by
      rw [nearest3_distance, hz]
      have h1 : min (min p.y (rules.arena.height - p.y)) (rules.arena.width / 2 - p.x)
          ≤ min p.y (rules.arena.height - p.y) := min_le_left _ _
      have h2 : min p.y (rules.arena.height - p.y) ≤ rules.arena.height / 2 := by
        rcases le_total p.y (rules.arena.height - p.y) with h | h
        · rw [min_eq_left h]
          linarith
        · rw [min_eq_right h]
          linarith
      intro hlt
      linarith
    unfold CI.min
    rw [if_neg hn]
    exact nearest3_normal_z rules p
  · rw [ciToArenaQ_of_not_cond rules p hc]
    exact nearest3_normal_z rules p

/-- The folded solver at a point of the floor inside the box: the floor, at distance 0. -/
theorem ciToArenaQ_on_floor (rules : Rules K) (p : Vec3 K) (hh : 0 < rules.arena.height)
    (hy : p.y = 0) (hx : p.x < rules.arena.width / 2) (hz : p.z < rules.arena.depth / 2) :
    Algebra.CIToArenaQ rules p = ⟨0, ⟨0, 1, 0⟩⟩ := by
  have h3 : nearest3 rules p = ⟨0, ⟨0, 1, 0⟩⟩ := by
    unfold nearest3 CI.min
    rw [hy]
    have a1 : ¬ (rules.arena.height - 0 < (0 : K)) := by
      intro h
      linarith
    simp only [a1, if_false]
    have a2 : ¬ (rules.arena.width / 2 - p.x < (0 : K)) := by
      intro h
      linarith
    simp only [a2, if_false]
  by_cases hc : backWallCond rules p
  · rw [ciToArenaQ_of_cond rules p hc, h3]
    unfold CI.min
    have a3 : ¬ (rules.arena.depth / 2 - p.z < (0 : K)) := by
      intro h
      linarith
    simp only [a3, if_false]
  · rw [ciToArenaQ_of_not_cond rules p hc, h3]

/-- The solver in `arenaShallow` at the centre point `(0, 10, 0)`: the back wall. -/
theorem ciToArena_shallow :
    Algebra.CIToArena rulesShallow ⟨0, 10, 0⟩ = ⟨1, ⟨0, 0, -1⟩⟩ := by
  simp [Algebra.CIToArena, Algebra.CIToArenaQ, Algebra.CIToPlane, CI.min, Vec3.sub, Vec3.dot,
    Vec3.zero, rulesShallow, arenaShallow]
  norm_num

end Lemmas

section Claims

variable {K : Type} [LinearOrderedField K] [HasSqrt K]

/-- C1: whenever the folded point lies beyond the goal mouth in x, above it in y, or
outside the rounded corner, the solver returns the minimum of the four plane distances
(floor, ceiling, side wall, back wall), and its normal is the normal of one of these four
planes attaining that minimum, with the x-component negated when `p.x < 0` and the
z-component negated when `p.z < 0`. -/
theorem CIToArena_with_back_wall (rules : Rules K) (p : Vec3 K)
    (h : rules.arena.goal_width / 2 + rules.arena.goal_side_radius < |p.x| ∨
      rules.arena.goal_height + rules.arena.goal_side_radius < p.y ∨
      (0 < |p.x| - (rules.arena.goal_width / 2 - rules.arena.goal_top_radius) ∧
        0 < p.y - (rules.arena.goal_height - rules.arena.goal_top_radius) ∧
        rules.arena.goal_top_radius + rules.arena.goal_side_radius ≤
          HasSqrt.sqrt
            ((|p.x| - (rules.arena.goal_width / 2 - rules.arena.goal_top_radius)) *
                (|p.x| - (rules.arena.goal_width / 2 - rules.arena.goal_top_radius)) +
              (p.y - (rules.arena.goal_height - rules.arena.goal_top_radius)) *
                (p.y - (rules.arena.goal_height - rules.arena.goal_top_radius))))) :
    (Algebra.CIToArena rules p).distance =
        min (min (min p.y (rules.arena.height - p.y)) (rules.arena.width / 2 - |p.x|))
          (rules.arena.depth / 2 - |p.z|) ∧
      ∃ pl ∈ [(p.y, (⟨0, 1, 0⟩ : Vec3 K)), (rules.arena.height - p.y, ⟨0, -1, 0⟩),
          (rules.arena.width / 2 - |p.x|, ⟨-1, 0, 0⟩),
          (rules.arena.depth / 2 - |p.z|, ⟨0, 0, -1⟩)],
        pl.1 = (Algebra.CIToArena rules p).distance ∧
          (Algebra.CIToArena rules p).normal =
            ⟨if p.x < 0 then -pl.2.x else pl.2.x, pl.2.y,
              if p.z < 0 then -pl.2.z else pl.2.z⟩ := by
  have hc : backWallCond rules ⟨|p.x|, p.y, |p.z|⟩ := by
    rcases h with h | h | ⟨h1, h2, h3⟩
    · exact Or.inl h.le
    · exact Or.inr (Or.inl h.le)
    · refine Or.inr (Or.inr ⟨h1, h2, ?_⟩)
      simpa [Vec3.norm] using h3
  rw [ciToArena_eq, ciToArenaQ_of_cond rules _ hc]
  refine ⟨by simp only [ci_min_distance, nearest3_distance], ?_⟩
  rcases ci_min_cases (nearest3 rules ⟨|p.x|, p.y, |p.z|⟩)
      ⟨rules.arena.depth / 2 - |p.z|, ⟨0, 0, -1⟩⟩ with h4 | h4
  · rw [h4]
    rcases nearest3_cases rules ⟨|p.x|, p.y, |p.z|⟩ with h3 | h3 | h3
    · exact ⟨_, List.mem_cons_self _ _, by rw [h3], by rw [h3]⟩
    · exact ⟨_, List.mem_cons_of_mem _ (List.mem_cons_self _ _), by rw [h3], by rw [h3]⟩
    · exact ⟨_, List.mem_cons_of_mem _ (List.mem_cons_of_mem _ (List.mem_cons_self _ _)),
        by rw [h3], by rw [h3]⟩
  · rw [h4]
    exact ⟨_, List.mem_cons_of_mem _ (List.mem_cons_of_mem _ (List.mem_cons_of_mem _
      (List.mem_cons_self _ _))), rfl, rfl⟩

/-- C1, evaluated: at `(-29, 5, 3)` in `arena0` the point is beyond the goal mouth in x,
and the nearest of the four planes is the side wall at distance 1. -/
theorem CIToArena_with_back_wall_witness :
    rules0.arena.goal_width / 2 + rules0.arena.goal_side_radius < |(-29 : ℚ)| ∧
      (Algebra.CIToArena rules0 ⟨-29, 5, 3⟩).distance = 1 := by
  have h : rules0.arena.goal_width / 2 + rules0.arena.goal_side_radius < |(-29 : ℚ)| := by
    norm_num [rules0, arena0, abs_of_neg]
  refine ⟨h, ?_⟩
  have h1 := (CIToArena_with_back_wall rules0 ⟨-29, 5, 3⟩ (Or.inl h)).1
  rw [h1]
  norm_num [rules0, arena0, abs_of_neg]

/-- C2: for a point inside the goal aperture (folded x below `goal_width/2 +
goal_side_radius`, y below `goal_height + goal_side_radius`, not outside the rounded
corner), and in particular for a point whose offset lies in the open quarter-disk, the
solver returns the minimum of the floor, ceiling and side-wall distances, a normal with
z-component 0, and a result that does not depend on `p.z`. -/
theorem CIToArena_inside_goal (rules : Rules K) (p : Vec3 K)
    (h : (|p.x| < rules.arena.goal_width / 2 + rules.arena.goal_side_radius ∧
        p.y < rules.arena.goal_height + rules.arena.goal_side_radius ∧
        ¬ (0 < |p.x| - (rules.arena.goal_width / 2 - rules.arena.goal_top_radius) ∧
          0 < p.y - (rules.arena.goal_height - rules.arena.goal_top_radius) ∧
          rules.arena.goal_top_radius + rules.arena.goal_side_radius ≤
            HasSqrt.sqrt
              ((|p.x| - (rules.arena.goal_width / 2 - rules.arena.goal_top_radius)) *
                  (|p.x| - (rules.arena.goal_width / 2 - rules.arena.goal_top_radius)) +
                (p.y - (rules.arena.goal_height - rules.arena.goal_top_radius)) *
                  (p.y - (rules.arena.goal_height - rules.arena.goal_top_radius))))) ∨
      (0 < |p.x| - (rules.arena.goal_width / 2 - rules.arena.goal_top_radius) ∧
        0 < p.y - (rules.arena.goal_height - rules.arena.goal_top_radius) ∧
        HasSqrt.sqrt
            ((|p.x| - (rules.arena.goal_width / 2 - rules.arena.goal_top_radius)) *
                (|p.x| - (rules.arena.goal_width / 2 - rules.arena.goal_top_radius)) +
              (p.y - (rules.arena.goal_height - rules.arena.goal_top_radius)) *
                (p.y - (rules.arena.goal_height - rules.arena.goal_top_radius))) <
          rules.arena.goal_top_radius + rules.arena.goal_side_radius ∧
        SqrtExact
          ((|p.x| - (rules.arena.goal_width / 2 - rules.arena.goal_top_radius)) *
              (|p.x| - (rules.arena.goal_width / 2 - rules.arena.goal_top_radius)) +
            (p.y - (rules.arena.goal_height - rules.arena.goal_top_radius)) *
              (p.y - (rules.arena.goal_height - rules.arena.goal_top_radius))))) :
    (Algebra.CIToArena rules p).distance =
        min (min p.y (rules.arena.height - p.y)) (rules.arena.width / 2 - |p.x|) ∧
      (Algebra.CIToArena rules p).normal.z = 0 ∧
      ∀ z : K, Algebra.CIToArena rules ⟨p.x, p.y, z⟩ = Algebra.CIToArena rules p := by
  have key : ∀ z : K, ¬ backWallCond rules ⟨|p.x|, p.y, |z|⟩ := by
    intro z
    rcases h with ⟨h1, h2, h3⟩ | ⟨h1, h2, h3, h4⟩
    · rintro (c | c | ⟨c1, c2, c3⟩)
      · exact absurd h1 (not_lt.mpr c)
      · exact absurd h2 (not_lt.mpr c)
      · exact h3 ⟨c1, c2, by simpa [Vec3.norm] using c3⟩
    · have hx := le_sqrt_add_sq h1 h4
      have hy := le_sqrt_add_sq h2 (by rwa [add_comm] at h4)
      rw [add_comm] at hy
      rintro (c | c | ⟨_, _, c3⟩)
      · have c' : rules.arena.goal_width / 2 + rules.arena.goal_side_radius ≤ |p.x| := c
        linarith
      · have c' : rules.arena.goal_height + rules.arena.goal_side_radius ≤ p.y := c
        linarith
      · have c' := c3
        simp only [Vec3.norm, sub_self, mul_zero, add_zero, ge_iff_le] at c'
        exact absurd h3 (not_lt.mpr c')
  have hq : ∀ z : K, Algebra.CIToArena rules ⟨p.x, p.y, z⟩ =
      ⟨(nearest3 rules ⟨|p.x|, p.y, 0⟩).distance,
        ⟨if p.x < 0 then -(nearest3 rules ⟨|p.x|, p.y, 0⟩).normal.x
            else (nearest3 rules ⟨|p.x|, p.y, 0⟩).normal.x,
          (nearest3 rules ⟨|p.x|, p.y, 0⟩).normal.y, 0⟩⟩ := by
    intro z
    rw [ciToArena_eq, ciToArenaQ_of_not_cond rules _ (key z)]
    have e : nearest3 rules ⟨|p.x|, p.y, |z|⟩ = nearest3 rules ⟨|p.x|, p.y, 0⟩ := rfl
    simp only [e, nearest3_normal_z, neg_zero, ite_self]
  have hp : Algebra.CIToArena rules p = Algebra.CIToArena rules ⟨p.x, p.y, p.z⟩ := rfl
  refine ⟨?_, ?_, ?_⟩
  · rw [hp, hq, nearest3_distance]
  · rw [hp, hq]
  · intro z
    rw [hp, hq, hq]

/-- C2, evaluated: at `(66/5, 43/5, 39)` in `arena0` the offset `(6/5, 8/5)` lies in the
open quarter-disk of radius 4; the back wall, one unit away, is not reported: the result
is the floor at distance `43/5`, with a normal whose z-component is 0. -/
theorem CIToArena_inside_goal_witness :
    (HasSqrt.sqrt ((6 / 5 : ℚ) * (6 / 5) + (8 / 5) * (8 / 5)) <
        rules0.arena.goal_top_radius + rules0.arena.goal_side_radius ∧
      SqrtExact ((6 / 5 : ℚ) * (6 / 5) + (8 / 5) * (8 / 5))) ∧
      (Algebra.CIToArena rules0 ⟨66 / 5, 43 / 5, 39⟩).distance = 43 / 5 ∧
      (Algebra.CIToArena rules0 ⟨66 / 5, 43 / 5, 39⟩).normal.z = 0 := by
  have e : (6 / 5 : ℚ) * (6 / 5) + (8 / 5) * (8 / 5) = 2 * 2 := by norm_num
  have hs : HasSqrt.sqrt ((6 / 5 : ℚ) * (6 / 5) + (8 / 5) * (8 / 5)) <
      rules0.arena.goal_top_radius + rules0.arena.goal_side_radius := by
    rw [e, sqrt_rat_mul_self 2 (by norm_num)]
    norm_num [rules0, arena0]
  have hx : SqrtExact ((6 / 5 : ℚ) * (6 / 5) + (8 / 5) * (8 / 5)) := by
    rw [e]
    exact sqrtExact_rat_mul_self 2 (by norm_num)
  have ox : |(66 / 5 : ℚ)| - (rules0.arena.goal_width / 2 - rules0.arena.goal_top_radius)
      = 6 / 5 := by
    norm_num [rules0, arena0, abs_of_pos]
  have oy : (43 / 5 : ℚ) - (rules0.arena.goal_height - rules0.arena.goal_top_radius)
      = 8 / 5 := by
    norm_num [rules0, arena0]
  have h := CIToArena_inside_goal rules0 ⟨66 / 5, 43 / 5, 39⟩
    (Or.inr (by
      dsimp only
      rw [ox, oy]
      exact ⟨by norm_num, by norm_num, hs, hx⟩))
  refine ⟨⟨hs, hx⟩, ?_, h.2.1⟩
  rw [h.1]
  norm_num [rules0, arena0, abs_of_pos]

/-- C3: when the penetration `r - CIToArena(p).distance` is positive, `collideArena`
moves the position to `p.position + normal * penetration`; the collision info was
produced by one of the arena's boundary planes, and the signed distance from the new
position to that plane is exactly `r`.  In particular, when the floor is the nearest
boundary and `p.position.y = r - d` with `d > 0`, the new `position.y` is `r`. -/
theorem collideArena_push_out (rules : Rules K) (p : Prediction K) (b : Ball K)
    (h : 0 < b.radius - (Algebra.CIToArena rules p.position).distance) :
    (Algebra.collideArena rules p b).position =
        p.position.add ((Algebra.CIToArena rules p.position).normal.mul
          (b.radius - (Algebra.CIToArena rules p.position).distance)) ∧
      (∃ pl ∈ arenaPlanes rules,
        Algebra.CIToPlane p.position pl.1 pl.2 = Algebra.CIToArena rules p.position ∧
          (Algebra.CIToPlane (Algebra.collideArena rules p b).position pl.1 pl.2).distance
            = b.radius) ∧
      (∀ d : K, 0 < d → p.position.y = b.radius - d →
        Algebra.CIToArena rules p.position = ⟨p.position.y, ⟨0, 1, 0⟩⟩ →
        (Algebra.collideArena rules p b).position.y = b.radius) := by
  have hpos := (collideArena_of_pos rules p b h).1
  refine ⟨hpos, ?_, ?_⟩
  · obtain ⟨pl, hmem, h1, h2⟩ := ciToArena_plane rules p.position
    refine ⟨pl, hmem, h1, ?_⟩
    rw [hpos, ← h1]
    simp only [Algebra.CIToPlane, Vec3.sub, Vec3.dot, Vec3.add, Vec3.mul] at h2 ⊢
    linear_combination
      (b.radius - ((p.position.x - pl.1.x) * pl.2.x + (p.position.y - pl.1.y) * pl.2.y +
        (p.position.z - pl.1.z) * pl.2.z)) * h2
  · intro d _ _ hfloor
    rw [hpos, hfloor]
    simp [Vec3.add, Vec3.mul]

/-- C3, evaluated: `pred0` penetrates the floor by one unit and is pushed out to
height 2, the radius of the ball. -/
theorem collideArena_push_out_witness :
    0 < ball0.radius - (Algebra.CIToArena rules0 pred0.position).distance ∧
      (Algebra.collideArena rules0 pred0 ball0).position = ⟨0, 2, 0⟩ := by
  have h : 0 < ball0.radius - (Algebra.CIToArena rules0 pred0.position).distance := by
    rw [ciToArena_pred0]
    norm_num [ball0]
  refine ⟨h, ?_⟩
  rw [(collideArena_push_out rules0 pred0 ball0 h).1, ciToArena_pred0]
  norm_num [Vec3.add, Vec3.mul, pred0, ball0]

/-- C4: when the penetration is positive and the velocity component along the collision
normal `n` is negative, `collideArena` sets the velocity to
`v - n * ((1 + BALL_ARENA_E) * (v.n))`; the normal component of the new velocity is
`-BALL_ARENA_E * (v.n)` and its tangential component is that of `v`. -/
theorem collideArena_restitution (rules : Rules K) (p : Prediction K) (b : Ball K)
    (h : 0 < b.radius - (Algebra.CIToArena rules p.position).distance)
    (hv : p.velocity.dot (Algebra.CIToArena rules p.position).normal < 0) :
    (Algebra.collideArena rules p b).velocity =
        p.velocity.sub ((Algebra.CIToArena rules p.position).normal.mul
          ((1 + rules.BALL_ARENA_E) *
            p.velocity.dot (Algebra.CIToArena rules p.position).normal)) ∧
      (Algebra.collideArena rules p b).velocity.dot (Algebra.CIToArena rules p.position).normal
        = -rules.BALL_ARENA_E * p.velocity.dot (Algebra.CIToArena rules p.position).normal ∧
      (Algebra.collideArena rules p b).velocity.sub
          ((Algebra.CIToArena rules p.position).normal.mul
            ((Algebra.collideArena rules p b).velocity.dot
              (Algebra.CIToArena rules p.position).normal))
        = p.velocity.sub ((Algebra.CIToArena rules p.position).normal.mul
            (p.velocity.dot (Algebra.CIToArena rules p.position).normal)) := by
  have hvel := (collideArena_of_pos rules p b h).2
  rw [if_pos hv] at hvel
  have hu := ciToArena_normal_unit rules p.position
  have hdot : (Algebra.collideArena rules p b).velocity.dot
      (Algebra.CIToArena rules p.position).normal
        = -rules.BALL_ARENA_E * p.velocity.dot (Algebra.CIToArena rules p.position).normal := by
    rw [hvel]
    simp only [Vec3.dot, Vec3.sub, Vec3.mul] at hu ⊢
    linear_combination
      (-(1 + rules.BALL_ARENA_E) *
        (p.velocity.x * (Algebra.CIToArena rules p.position).normal.x +
          p.velocity.y * (Algebra.CIToArena rules p.position).normal.y +
          p.velocity.z * (Algebra.CIToArena rules p.position).normal.z)) * hu
  refine ⟨hvel, hdot, ?_⟩
  rw [hdot, hvel]
  simp only [Vec3.dot, Vec3.sub, Vec3.mul]
  ext <;> simp only <;> ring

/-- C4, evaluated: `pred0` hits the floor with normal velocity `-10`; with restitution
`7/10` the velocity `(3, -10, 0)` becomes `(3, 7, 0)`. -/
theorem collideArena_restitution_witness :
    (0 < ball0.radius - (Algebra.CIToArena rules0 pred0.position).distance ∧
        pred0.velocity.dot (Algebra.CIToArena rules0 pred0.position).normal < 0) ∧
      (Algebra.collideArena rules0 pred0 ball0).velocity = ⟨3, 7, 0⟩ := by
  have h : 0 < ball0.radius - (Algebra.CIToArena rules0 pred0.position).distance := by
    rw [ciToArena_pred0]
    norm_num [ball0]
  have hv : pred0.velocity.dot (Algebra.CIToArena rules0 pred0.position).normal < 0 := by
    rw [ciToArena_pred0]
    norm_num [Vec3.dot, pred0]
  refine ⟨⟨h, hv⟩, ?_⟩
  rw [(collideArena_restitution rules0 pred0 ball0 h hv).1, ciToArena_pred0]
  norm_num [Vec3.sub, Vec3.mul, Vec3.dot, pred0, rules0]

/-- C5: `move` replaces the velocity by `vc = clamp(velocity, MAX_ENTITY_SPEED)`: the
velocity scaled down (by a factor in `[0, 1)`) to norm `MAX_ENTITY_SPEED` when it is
longer, the velocity itself otherwise, so that `|vc| ≤ MAX_ENTITY_SPEED`; the new position
is the old position plus `vc * dt`, with `GRAVITY * dt * dt / 2` taken off the
y-coordinate, and the new velocity is `vc` with `GRAVITY * dt` taken off its
y-component. -/
theorem move_step (consts : Consts K) (p : Prediction K) (b : Ball K) (dt : K)
    (hmax : 0 ≤ consts.MAX_ENTITY_SPEED)
    (h1 : SqrtExact (p.velocity.dot p.velocity))
    (h2 : SqrtExact ((p.velocity.clamp consts.MAX_ENTITY_SPEED).dot
      (p.velocity.clamp consts.MAX_ENTITY_SPEED))) :
    (consts.MAX_ENTITY_SPEED < p.velocity.norm →
        (∃ k : K, 0 ≤ k ∧ k < 1 ∧
          p.velocity.clamp consts.MAX_ENTITY_SPEED = p.velocity.mul k) ∧
        (p.velocity.clamp consts.MAX_ENTITY_SPEED).norm = consts.MAX_ENTITY_SPEED) ∧
      (p.velocity.norm ≤ consts.MAX_ENTITY_SPEED →
        p.velocity.clamp consts.MAX_ENTITY_SPEED = p.velocity) ∧
      (p.velocity.clamp consts.MAX_ENTITY_SPEED).norm ≤ consts.MAX_ENTITY_SPEED ∧
      (Algebra.move consts p b dt).position =
        ⟨p.position.x + (p.velocity.clamp consts.MAX_ENTITY_SPEED).x * dt,
          p.position.y + (p.velocity.clamp consts.MAX_ENTITY_SPEED).y * dt
            - consts.GRAVITY * dt * dt / 2,
          p.position.z + (p.velocity.clamp consts.MAX_ENTITY_SPEED).z * dt⟩ ∧
      (Algebra.move consts p b dt).velocity =
        ⟨(p.velocity.clamp consts.MAX_ENTITY_SPEED).x,
          (p.velocity.clamp consts.MAX_ENTITY_SPEED).y - consts.GRAVITY * dt,
          (p.velocity.clamp consts.MAX_ENTITY_SPEED).z⟩ := by
  refine ⟨?_, ?_, ?_, ?_, ?_⟩
  · intro hlt
    have hn : 0 < p.velocity.norm := lt_of_le_of_lt hmax hlt
    refine ⟨⟨consts.MAX_ENTITY_SPEED / p.velocity.norm, div_nonneg hmax hn.le,
      (div_lt_one hn).mpr hlt, ?_⟩, ?_⟩
    · rw [clamp_of_lt _ _ hlt]
      simp only [Vec3.normalize, Vec3.div, Vec3.mul]
      ext <;> simp only <;> ring
    · exact norm_eq_of_dot_self_eq _ _ hmax h2 (clamp_dot_self_of_lt _ _ h1 hmax hlt)
  · intro hle
    exact clamp_of_not_lt _ _ (not_lt.mpr hle)
  · exact norm_le_of_dot_self_le _ _ hmax h2 (clamp_dot_self_le _ _ h1 hmax)
  · rw [move_eq]
  · rw [move_eq]

/-- C5, evaluated: the velocity `(120, -160, 0)` of `predFast` has norm 200 and is clamped
to `(60, -80, 0)` of norm 100; after `dt = 1/60` the velocity is `(60, -161/2, 0)`. -/
theorem move_step_witness :
    (0 ≤ consts0.MAX_ENTITY_SPEED ∧
        SqrtExact (predFast.velocity.dot predFast.velocity) ∧
        SqrtExact ((predFast.velocity.clamp consts0.MAX_ENTITY_SPEED).dot
          (predFast.velocity.clamp consts0.MAX_ENTITY_SPEED))) ∧
      (Algebra.move consts0 predFast ball0 (1 / 60)).velocity = ⟨60, -(161 / 2), 0⟩ := by
  have hmax : 0 ≤ consts0.MAX_ENTITY_SPEED := by norm_num [consts0]
  have h1 : SqrtExact (predFast.velocity.dot predFast.velocity) := by
    have e : predFast.velocity.dot predFast.velocity = (200 : ℚ) * 200 := by
      norm_num [Vec3.dot, predFast]
    rw [e]
    exact sqrtExact_rat_mul_self 200 (by norm_num)
  have h2 : SqrtExact ((predFast.velocity.clamp consts0.MAX_ENTITY_SPEED).dot
      (predFast.velocity.clamp consts0.MAX_ENTITY_SPEED)) := by
    have e : (predFast.velocity.clamp consts0.MAX_ENTITY_SPEED).dot
        (predFast.velocity.clamp consts0.MAX_ENTITY_SPEED) = (100 : ℚ) * 100 := by
      rw [clamp_predFast]
      norm_num [Vec3.dot]
    rw [e]
    exact sqrtExact_rat_mul_self 100 (by norm_num)
  refine ⟨⟨hmax, h1, h2⟩, ?_⟩
  rw [(move_step consts0 predFast ball0 (1 / 60) hmax h1 h2).2.2.2.2, clamp_predFast]
  norm_num [consts0]

/-- C6 fails as stated: a ball in mid-air that falls at exactly `MAX_ENTITY_SPEED = 100`
has, after one integration step with `dt = 1/60`, the speed `201/2 > 100`: gravity is
applied after the clamp. -/
theorem step_speed_counterexample :
    predMax.velocity.norm ≤ consts0.MAX_ENTITY_SPEED ∧ (0 : ℚ) ≤ 1 / 60 ∧
      ¬ ((Algebra.collideArena rules0 (Algebra.move consts0 predMax ball0 (1 / 60))
          ball0).velocity.norm ≤ consts0.MAX_ENTITY_SPEED) := by
  refine ⟨?_, by norm_num, ?_⟩
  · have e : predMax.velocity.x * predMax.velocity.x + predMax.velocity.y * predMax.velocity.y
        + predMax.velocity.z * predMax.velocity.z = (100 : ℚ) * 100 := by
      norm_num [predMax]
    unfold Vec3.norm
    rw [e, sqrt_rat_mul_self 100 (by norm_num)]
    norm_num [consts0]
  · rw [step_predMax]
    have e : (0 : ℚ) * 0 + -(201 / 2) * -(201 / 2) + 0 * 0 = (201 / 2) * (201 / 2) := by
      norm_num
    unfold Vec3.norm
    dsimp only
    rw [e, sqrt_rat_mul_self (201 / 2) (by norm_num)]
    norm_num [consts0]

/-- C6, amended: for `dt ≥ 0`, `GRAVITY ≥ 0`, `MAX_ENTITY_SPEED ≥ 0` and a restitution
coefficient in `[0, 1]`, after one integration step (`move`, then `collideArena`) the
velocity magnitude is at most `MAX_ENTITY_SPEED + GRAVITY * dt`. -/
theorem step_speed_le (consts : Consts K) (rules : Rules K) (p : Prediction K) (b : Ball K)
    (dt : K) (hdt : 0 ≤ dt) (hg : 0 ≤ consts.GRAVITY) (hmax : 0 ≤ consts.MAX_ENTITY_SPEED)
    (hE0 : 0 ≤ rules.BALL_ARENA_E) (hE1 : rules.BALL_ARENA_E ≤ 1)
    (h1 : SqrtExact (p.velocity.dot p.velocity))
    (h2 : SqrtExact
      ((Algebra.collideArena rules (Algebra.move consts p b dt) b).velocity.dot
        (Algebra.collideArena rules (Algebra.move consts p b dt) b).velocity)) :
    (Algebra.collideArena rules (Algebra.move consts p b dt) b).velocity.norm ≤
      consts.MAX_ENTITY_SPEED + consts.GRAVITY * dt :=
  norm_le_of_dot_self_le _ _ (add_nonneg hmax (mul_nonneg hg hdt)) h2
    (le_trans (collideArena_dot_self_le rules _ b hE0 hE1)
      (move_dot_self_le consts p b dt hdt hg hmax h1))

/-- C6 amended, evaluated: from `predMax` with `dt = 1/60` the speed after the step is
`201/2`, which is exactly `MAX_ENTITY_SPEED + GRAVITY * dt`. -/
theorem step_speed_le_witness :
    (Algebra.collideArena rules0 (Algebra.move consts0 predMax ball0 (1 / 60))
        ball0).velocity.norm ≤ consts0.MAX_ENTITY_SPEED + consts0.GRAVITY * (1 / 60) := by
  have h1 : SqrtExact (predMax.velocity.dot predMax.velocity) := by
    have e : predMax.velocity.dot predMax.velocity = (100 : ℚ) * 100 := by
      norm_num [Vec3.dot, predMax]
    rw [e]
    exact sqrtExact_rat_mul_self 100 (by norm_num)
  have h2 : SqrtExact
      ((Algebra.collideArena rules0 (Algebra.move consts0 predMax ball0 (1 / 60))
          ball0).velocity.dot
        (Algebra.collideArena rules0 (Algebra.move consts0 predMax ball0 (1 / 60))
          ball0).velocity) := by
    have e : (Algebra.collideArena rules0 (Algebra.move consts0 predMax ball0 (1 / 60))
          ball0).velocity.dot
        (Algebra.collideArena rules0 (Algebra.move consts0 predMax ball0 (1 / 60))
          ball0).velocity = (201 / 2 : ℚ) * (201 / 2) := by
      rw [step_predMax]
      norm_num [Vec3.dot]
    rw [e]
    exact sqrtExact_rat_mul_self (201 / 2) (by norm_num)
  exact step_speed_le consts0 rules0 predMax ball0 (1 / 60) (by norm_num)
    (by norm_num [consts0]) (by norm_num [consts0]) (by norm_num [rules0])
    (by norm_num [rules0]) h1 h2

/-- C7: for a point `p` with `p.x < 0` and its mirror image `q = (-p.x, p.y, p.z)`, the
x-component of the normal at `p` is the negated x-component of the normal at `q`, while
the distance and the y- and z-components of the normal agree. -/
theorem CIToArena_mirror_x (rules : Rules K) (p : Vec3 K) (hx : p.x < 0) :
    (Algebra.CIToArena rules p).normal.x
        = -(Algebra.CIToArena rules ⟨-p.x, p.y, p.z⟩).normal.x ∧
      (Algebra.CIToArena rules p).distance
        = (Algebra.CIToArena rules ⟨-p.x, p.y, p.z⟩).distance ∧
      (Algebra.CIToArena rules p).normal.y
        = (Algebra.CIToArena rules ⟨-p.x, p.y, p.z⟩).normal.y ∧
      (Algebra.CIToArena rules p).normal.z
        = (Algebra.CIToArena rules ⟨-p.x, p.y, p.z⟩).normal.z := by
  have hq : ¬ (-p.x < 0) := not_lt.mpr (neg_nonneg.mpr hx.le)
  rw [ciToArena_eq rules p, ciToArena_eq rules ⟨-p.x, p.y, p.z⟩]
  simp [abs_neg, hx, hq]

/-- C7, evaluated: at `(-29, 5, 3)` in `arena0`, next to the side wall `x = -30`. -/
theorem CIToArena_mirror_x_witness :
    (-29 : ℚ) < 0 ∧
      (Algebra.CIToArena rules0 ⟨-29, 5, 3⟩).normal.x
        = -(Algebra.CIToArena rules0 ⟨-(-29), 5, 3⟩).normal.x :=
  ⟨by norm_num, (CIToArena_mirror_x rules0 ⟨-29, 5, 3⟩ (by norm_num)).1⟩

/-- C8 fails as stated: in an arena that is higher than deep (height 20, depth 2) the
point `(0, 10, 0)` on the plane `z = 0` is its own mirror image and the solver reports the
back wall, normal `(0, 0, -1)`, for it; the z-component is not negated. -/
theorem CIToArena_mirror_z_counterexample :
    ¬ ((Algebra.CIToArena rulesShallow ⟨0, 10, -0⟩).distance
          = (Algebra.CIToArena rulesShallow ⟨0, 10, 0⟩).distance ∧
        (Algebra.CIToArena rulesShallow ⟨0, 10, -0⟩).normal.x
          = (Algebra.CIToArena rulesShallow ⟨0, 10, 0⟩).normal.x ∧
        (Algebra.CIToArena rulesShallow ⟨0, 10, -0⟩).normal.y
          = (Algebra.CIToArena rulesShallow ⟨0, 10, 0⟩).normal.y ∧
        (Algebra.CIToArena rulesShallow ⟨0, 10, -0⟩).normal.z
          = -(Algebra.CIToArena rulesShallow ⟨0, 10, 0⟩).normal.z) := by
  rw [neg_zero, ciToArena_shallow]
  norm_num

/-- C8, amended: for a point `p` with `p.z ≠ 0`, or any point when the arena height is at
most its depth, and its mirror image `q = (p.x, p.y, -p.z)`, the distances and the x- and
y-components of the normals agree, and the z-component of the normal is negated. -/
theorem CIToArena_mirror_z (rules : Rules K) (p : Vec3 K)
    (h : p.z ≠ 0 ∨ rules.arena.height ≤ rules.arena.depth) :
    (Algebra.CIToArena rules ⟨p.x, p.y, -p.z⟩).distance
        = (Algebra.CIToArena rules p).distance ∧
      (Algebra.CIToArena rules ⟨p.x, p.y, -p.z⟩).normal.x
        = (Algebra.CIToArena rules p).normal.x ∧
      (Algebra.CIToArena rules ⟨p.x, p.y, -p.z⟩).normal.y
        = (Algebra.CIToArena rules p).normal.y ∧
      (Algebra.CIToArena rules ⟨p.x, p.y, -p.z⟩).normal.z
        = -(Algebra.CIToArena rules p).normal.z := by
  rw [ciToArena_eq rules p, ciToArena_eq rules ⟨p.x, p.y, -p.z⟩]
  simp only [abs_neg]
  refine ⟨trivial, trivial, trivial, ?_⟩
  rcases lt_trichotomy p.z 0 with hz | hz | hz
  · rw [if_pos hz, if_neg (not_lt.mpr (neg_nonneg.mpr hz.le)), neg_neg]
  · rcases h with h | h
    · exact absurd hz h
    · have h0 := ciToArenaQ_normal_z_of_z_eq_zero rules ⟨|p.x|, p.y, |p.z|⟩
        (by simp [hz]) h
      rw [h0]
      simp
  · rw [if_neg (not_lt.mpr hz.le), if_pos (neg_neg_of_pos hz)]

/-- C8 amended, evaluated on the spec's scenario: the points `(25, 0, 40)` and
`(25, 0, -40)` of `arenaScenario` have the same distance, and normals that differ only in
the sign of the z-component. -/
theorem CIToArena_mirror_z_witness :
    (40 : ℚ) ≠ 0 ∧
      (Algebra.CIToArena rulesScenario ⟨25, 0, -40⟩).distance
        = (Algebra.CIToArena rulesScenario ⟨25, 0, 40⟩).distance ∧
      (Algebra.CIToArena rulesScenario ⟨25, 0, -40⟩).normal.x
        = (Algebra.CIToArena rulesScenario ⟨25, 0, 40⟩).normal.x ∧
      (Algebra.CIToArena rulesScenario ⟨25, 0, -40⟩).normal.y
        = (Algebra.CIToArena rulesScenario ⟨25, 0, 40⟩).normal.y ∧
      (Algebra.CIToArena rulesScenario ⟨25, 0, -40⟩).normal.z
        = -(Algebra.CIToArena rulesScenario ⟨25, 0, 40⟩).normal.z :=
  ⟨by norm_num, CIToArena_mirror_z rulesScenario ⟨25, 0, 40⟩ (Or.inl (by norm_num))⟩

/-- C9: in an arena of positive width, height and depth, a point of the floor plane
(`p.y = 0`) with `|p.x| < width/2` and `|p.z| < depth/2` has distance 0 and normal exactly
`(0, 1, 0)`. -/
theorem CIToArena_on_floor (rules : Rules K) (p : Vec3 K) (_hw : 0 < rules.arena.width)
    (hh : 0 < rules.arena.height) (_hd : 0 < rules.arena.depth) (hy : p.y = 0)
    (hx : |p.x| < rules.arena.width / 2) (hz : |p.z| < rules.arena.depth / 2) :
    Algebra.CIToArena rules p = ⟨0, ⟨0, 1, 0⟩⟩ := by
  rw [ciToArena_eq, ciToArenaQ_on_floor rules ⟨|p.x|, p.y, |p.z|⟩ hh hy hx hz]
  simp

/-- C9, evaluated: the floor point `(-3, 0, 7)` of `arena0`. -/
theorem CIToArena_on_floor_witness :
    Algebra.CIToArena rules0 ⟨-3, 0, 7⟩ = ⟨0, ⟨0, 1, 0⟩⟩ :=
  CIToArena_on_floor rules0 ⟨-3, 0, 7⟩ (by norm_num [rules0, arena0])
    (by norm_num [rules0, arena0]) (by norm_num [rules0, arena0]) rfl
    (by norm_num [rules0, arena0, abs_of_neg]) (by norm_num [rules0, arena0, abs_of_pos])

/-- C10 fails as stated: `pred0` penetrates the floor (its nearest boundary) by `d = 1`
with downward velocity `v = 10`; with `E = 7/10` the velocity.y after `collideArena` is
`7 = E * v`, not `(1 + E) * v = 17`. -/
theorem collideArena_floor_bounce_counterexample :
    Algebra.CIToArena rules0 pred0.position = ⟨pred0.position.y, ⟨0, 1, 0⟩⟩ ∧
      pred0.position.y = ball0.radius - 1 ∧ pred0.velocity.y = -10 ∧
      (Algebra.collideArena rules0 pred0 ball0).velocity.y ≠
        (1 + rules0.BALL_ARENA_E) * 10 := by
  have h : 0 < ball0.radius - (Algebra.CIToArena rules0 pred0.position).distance := by
    rw [ciToArena_pred0]
    norm_num [ball0]
  refine ⟨ciToArena_pred0, by norm_num [pred0, ball0], rfl, ?_⟩
  rw [(collideArena_of_pos rules0 pred0 ball0 h).2, ciToArena_pred0]
  norm_num [Vec3.sub, Vec3.mul, Vec3.dot, pred0, rules0]

/-- C10, amended: for a sphere of radius `r` penetrating the floor (its nearest boundary)
by `d > 0` with downward velocity `v > 0` (velocity.y = `-v`), after `collideArena` the
velocity.y is `-v - (1 + E) * (-v)`, that is `E * v`, with `E = BALL_ARENA_E`. -/
theorem collideArena_floor_bounce (rules : Rules K) (p : Prediction K) (b : Ball K)
    (d v : K) (hd : 0 < d) (hv : 0 < v)
    (hfloor : Algebra.CIToArena rules p.position = ⟨p.position.y, ⟨0, 1, 0⟩⟩)
    (hy : p.position.y = b.radius - d) (hvy : p.velocity.y = -v) :
    (Algebra.collideArena rules p b).velocity.y = -v - (1 + rules.BALL_ARENA_E) * (-v) ∧
      (Algebra.collideArena rules p b).velocity.y = rules.BALL_ARENA_E * v := by
  have h : 0 < b.radius - (Algebra.CIToArena rules p.position).distance := by
    rw [hfloor]
    show 0 < b.radius - p.position.y
    linarith
  have hneg : p.velocity.dot (Algebra.CIToArena rules p.position).normal < 0 := by
    rw [hfloor]
    simp only [Vec3.dot, hvy]
    linarith
  rw [(collideArena_of_pos rules p b h).2, if_pos hneg, hfloor]
  simp only [Vec3.sub, Vec3.mul, Vec3.dot, hvy]
  constructor <;> ring

/-- C10 amended, evaluated: `pred0` bounces off the floor with velocity.y `7 = 7/10 * 10`. -/
theorem collideArena_floor_bounce_witness :
    (Algebra.collideArena rules0 pred0 ball0).velocity.y = rules0.BALL_ARENA_E * 10 :=
  (collideArena_floor_bounce rules0 pred0 ball0 1 10 (by norm_num) (by norm_num)
    ciToArena_pred0 (by norm_num [pred0, ball0]) rfl).2

end Claims

/-! ## Auxiliary lemmas: vectors, teammate, prediction buffer -/

section Lemmas

set_option linter.unusedSectionVars false

variable {K : Type} [LinearOrderedField K] [HasSqrt K]

/-- The Euclidean distance is symmetric. -/
theorem distanceTo_comm (a b : Vec3 K) : a.distanceTo b = b.distanceTo a := by
  unfold Vec3.distanceTo
  congr 1
  ring

/-- The loop of `mate` returns the first robot that passes the test, and runs off the
end of the function when there is none. -/
theorem mateFrom_eq_find (me : Robot K) (rs : List (Robot K)) :
    Algebra.mateFrom me rs =
      match rs.find? (isMateOf me) with
      | some r => Outcome.value r
      | none => Outcome.undefined := by
  induction rs with
  | nil => rfl
  | cons r rs ih =>
    by_cases h : r.is_teammate = true ∧ r.id ≠ me.id
    · have h1 : isMateOf me r = true := by
        simp [isMateOf, h.1, h.2]
      simp only [Algebra.mateFrom, if_pos h, List.find?_cons, h1]
    · have h1 : isMateOf me r = false := by
        rw [not_and_or] at h
        rcases h with h | h
        · simp [isMateOf, h]
        · simp only [ne_eq, not_not] at h
          simp [isMateOf, h]
      simp only [Algebra.mateFrom, if_neg h, List.find?_cons, h1]
      exact ih

/-- The teammate of `me0` in `game0` is `mate0`. -/
theorem find_mate_game0 : game0.robots.find? (isMateOf me0) = some mate0 := by
  simp [game0, isMateOf, opp0, me0, mate0, List.find?]

/-- The robot `me0` is at distance 5 from the ball of `game0`. -/
theorem distance_me0 :
    (Algebra.locationRobot me0).distanceTo (Algebra.locationBall game0.ball) = 5 := by
  unfold Vec3.distanceTo
  norm_num [Algebra.locationRobot, Algebra.locationBall, me0, game0, ball0]
  rw [show (25 : ℚ) = 5 * 5 by norm_num]
  exact sqrt_rat_mul_self 5 (by norm_num)

/-- The robot `mate0` is at distance 10 from the ball of `game0`. -/
theorem distance_mate0 :
    (Algebra.locationRobot mate0).distanceTo (Algebra.locationBall game0.ball) = 10 := by
  unfold Vec3.distanceTo
  norm_num [Algebra.locationRobot, Algebra.locationBall, mate0, game0, ball0]
  rw [show (100 : ℚ) = 10 * 10 by norm_num]
  exact sqrt_rat_mul_self 10 (by norm_num)

/-- Scaling by 1000 scales the squared length by `1000 * 1000`. -/
theorem maximize_dot_self (v : Vec3 K) :
    v.maximize.dot v.maximize = (1000 * 1000) * v.dot v := by
  simp only [Vec3.maximize, Vec3.dot]
  ring

/-- The squared speed after a reflection by `collideArena`. -/
theorem collideArena_dot_self_of_reflect (rules : Rules K) (p : Prediction K) (b : Ball K)
    (h : 0 < b.radius - (Algebra.CIToArena rules p.position).distance)
    (hv : p.velocity.dot (Algebra.CIToArena rules p.position).normal < 0) :
    (Algebra.collideArena rules p b).velocity.dot (Algebra.collideArena rules p b).velocity
      = p.velocity.dot p.velocity
        - (1 + rules.BALL_ARENA_E) * (1 - rules.BALL_ARENA_E) *
          (p.velocity.dot (Algebra.CIToArena rules p.position).normal *
            p.velocity.dot (Algebra.CIToArena rules p.position).normal) := by
  rw [(collideArena_of_pos rules p b h).2, if_pos hv]
  have hu := ciToArena_normal_unit rules p.position
  simp only [Vec3.dot, Vec3.sub, Vec3.mul] at hu ⊢
  linear_combination
    ((1 + rules.BALL_ARENA_E) * (1 + rules.BALL_ARENA_E) *
      ((p.velocity.x * (Algebra.CIToArena rules p.position).normal.x +
          p.velocity.y * (Algebra.CIToArena rules p.position).normal.y +
          p.velocity.z * (Algebra.CIToArena rules p.position).normal.z) *
        (p.velocity.x * (Algebra.CIToArena rules p.position).normal.x +
          p.velocity.y * (Algebra.CIToArena rules p.position).normal.y +
          p.velocity.z * (Algebra.CIToArena rules p.position).normal.z))) * hu

/-- The velocity after `collideArena` when no reflection is applied. -/
theorem collideArena_velocity_of_not_reflect (rules : Rules K) (p : Prediction K)
    (b : Ball K)
    (h : ¬ (0 < b.radius - (Algebra.CIToArena rules p.position).distance ∧
      p.velocity.dot (Algebra.CIToArena rules p.position).normal < 0)) :
    (Algebra.collideArena rules p b).velocity = p.velocity := by
  by_cases hp : 0 < b.radius - (Algebra.CIToArena rules p.position).distance
  · have hv : ¬ p.velocity.dot (Algebra.CIToArena rules p.position).normal < 0 :=
      fun hv => h ⟨hp, hv⟩
    rw [(collideArena_of_pos rules p b hp).2, if_neg hv]
  · rw [collideArena_of_not_pos rules p b hp]

/-- The six axis vectors are the only normals `CIToArena` returns, and the x- and
z-components point against the signs of `p.x` and `p.z`. -/
theorem ciToArena_normal_cases (rules : Rules K) (p : Vec3 K) :
    ((Algebra.CIToArena rules p).normal = ⟨0, 1, 0⟩ ∨
        (Algebra.CIToArena rules p).normal = ⟨0, -1, 0⟩ ∨
        ((Algebra.CIToArena rules p).normal = ⟨-1, 0, 0⟩ ∧ 0 ≤ p.x) ∨
        ((Algebra.CIToArena rules p).normal = ⟨1, 0, 0⟩ ∧ p.x < 0) ∨
        ((Algebra.CIToArena rules p).normal = ⟨0, 0, -1⟩ ∧ 0 ≤ p.z) ∨
        ((Algebra.CIToArena rules p).normal = ⟨0, 0, 1⟩ ∧ p.z < 0)) := by
  rw [ciToArena_eq]
  rcases ciToArenaQ_cases rules ⟨|p.x|, p.y, |p.z|⟩ with h | h | h | h
  · left
    rw [h]
    simp
  · right; left
    rw [h]
    simp
  · rw [h]
    by_cases hx : p.x < 0
    · right; right; right; left
      simp [hx]
    · right; right; left
      simp [hx, not_lt.mp hx]
  · rw [h]
    by_cases hz : p.z < 0
    · right; right; right; right; right
      simp [hz]
    · right; right; right; right; left
      simp [hz, not_lt.mp hz]

/-- The bounce of `predBounce` off the floor: `(24, -10, 0)` becomes `(24, 7, 0)`. -/
theorem collideArena_predBounce :
    (Algebra.collideArena rules0 predBounce ball0).velocity = ⟨24, 7, 0⟩ := by
  have hc : Algebra.CIToArena rules0 predBounce.position = ⟨1, ⟨0, 1, 0⟩⟩ := ciToArena_pred0
  have h : 0 < ball0.radius - (Algebra.CIToArena rules0 predBounce.position).distance := by
    rw [hc]
    norm_num [ball0]
  rw [(collideArena_of_pos rules0 predBounce ball0 h).2, hc]
  norm_num [Vec3.sub, Vec3.mul, Vec3.dot, predBounce, rules0]

/-- The squared Euclidean distance is symmetric. -/
theorem distSq_comm (a b : Vec3 K) : distSq a b = distSq b a := by
  unfold distSq
  ring

/-- The method `distanceTo` is the square root of the squared Euclidean distance. -/
theorem distanceTo_eq_sqrt (a s : Vec3 K) : a.distanceTo s = HasSqrt.sqrt (distSq a s) := rfl

/-- Where the square root is exact, `distanceTo` is the Euclidean distance: it equals
every non-negative number whose square is the squared distance. -/
theorem distanceTo_eq_of_sq (a s : Vec3 K) (h : SqrtExact (distSq a s)) (d : K) (hd : 0 ≤ d)
    (e : d * d = distSq a s) : a.distanceTo s = d := by
  rw [distanceTo_eq_sqrt]
  exact (mul_self_inj h.1 hd).mp (h.2.trans e.symm)

/-- The teammate of `mate0` in `game0` is `me0`. -/
theorem find_mate_of_mate0 : game0.robots.find? (isMateOf mate0) = some me0 := by
  simp [game0, isMateOf, opp0, me0, mate0, List.find?]

/-- The squared distance from the ball of `game0` to `me0` is 25. -/
theorem distSq_me0 :
    distSq (Algebra.locationBall game0.ball) (Algebra.locationRobot me0) = 5 * 5 := by
  norm_num [distSq, Algebra.locationRobot, Algebra.locationBall, me0, game0, ball0]

/-- The squared distance from the ball of `game0` to `mate0` is 100. -/
theorem distSq_mate0 :
    distSq (Algebra.locationBall game0.ball) (Algebra.locationRobot mate0) = 10 * 10 := by
  norm_num [distSq, Algebra.locationRobot, Algebra.locationBall, mate0, game0, ball0]

/-- A quotient by zero is never finite. -/
theorem ieeeDiv_zero_not_finite (x y : K) : ieeeDiv x 0 ≠ IeeeValue.finite y := by
  unfold ieeeDiv
  rw [if_neg (not_not.mpr rfl)]
  split_ifs <;> exact fun e => IeeeValue.noConfusion e

/-- A quotient by a non-zero divisor is the finite quotient of the field. -/
theorem ieeeDiv_of_ne_zero (x v : K) (hv : v ≠ 0) : ieeeDiv x v = IeeeValue.finite (x / v) :=
  if_pos hv

/-- Away from a zero norm the two models of `normalize` agree: the IEEE quotients are
the finite components of `Vec3.normalize`. -/
theorem normalizeIeee_of_norm_ne_zero (v : Vec3 K) (hn : v.norm ≠ 0) :
    v.normalizeIeee = Outcome.value
      ⟨IeeeValue.finite v.normalize.x, IeeeValue.finite v.normalize.y,
        IeeeValue.finite v.normalize.z⟩ := by
  simp only [Vec3.normalizeIeee, Vec3.divIeee, ieeeDiv_of_ne_zero _ _ hn, Vec3.normalize,
    Vec3.div]

/-- The norm of the zero vector over the rationals. -/
theorem norm_zero_rat : (Vec3.zero : Vec3 ℚ).norm = 0 := by
  have e : (Vec3.zero : Vec3 ℚ).x * (Vec3.zero : Vec3 ℚ).x
      + (Vec3.zero : Vec3 ℚ).y * (Vec3.zero : Vec3 ℚ).y
      + (Vec3.zero : Vec3 ℚ).z * (Vec3.zero : Vec3 ℚ).z = (0 : ℚ) * 0 := by
    norm_num [Vec3.zero]
  unfold Vec3.norm
  rw [e]
  exact sqrt_rat_mul_self 0 (le_refl 0)

end Lemmas

section Claims

set_option linter.unusedSectionVars false

variable {K : Type} [LinearOrderedField K] [HasSqrt K]

/-- C11: `CIToPlane(p, q, n)` has distance `(p - q).n` and normal `n`; the distance is 0
exactly when `p` lies on the plane and negative exactly when `p` is on the side opposite
to `n`; for a unit normal it is the signed perpendicular distance: moving `p` back by
`n * distance` lands on the plane. -/
theorem CIToPlane_signed_distance (p q n : Vec3 K) :
    (Algebra.CIToPlane p q n).distance = (p.sub q).dot n ∧
      (Algebra.CIToPlane p q n).normal = n ∧
      ((Algebra.CIToPlane p q n).distance = 0 ↔ onPlane p q n) ∧
      ((Algebra.CIToPlane p q n).distance < 0 ↔ (p.sub q).dot n < 0) ∧
      (n.dot n = 1 →
        onPlane (p.sub (n.mul (Algebra.CIToPlane p q n).distance)) q n ∧
          p = (p.sub (n.mul (Algebra.CIToPlane p q n).distance)).add
            (n.mul (Algebra.CIToPlane p q n).distance)) := by
  refine ⟨rfl, rfl, Iff.rfl, Iff.rfl, ?_⟩
  intro hn
  constructor
  · simp only [onPlane, Algebra.CIToPlane, Vec3.sub, Vec3.dot, Vec3.mul] at hn ⊢
    linear_combination
      (-((p.x - q.x) * n.x + (p.y - q.y) * n.y + (p.z - q.z) * n.z)) * hn
  · simp only [Vec3.sub, Vec3.add, Vec3.mul]
    ext <;> simp

/-- C11, evaluated: the point `(1, 5, 2)` is 3 above the plane `y = 2`; its foot
`(1, 2, 2)` lies on the plane. -/
theorem CIToPlane_signed_distance_witness :
    (Algebra.CIToPlane (⟨1, 5, 2⟩ : Vec3 ℚ) ⟨0, 2, 0⟩ ⟨0, 1, 0⟩).distance = 3 ∧
      onPlane
        ((⟨1, 5, 2⟩ : Vec3 ℚ).sub ((⟨0, 1, 0⟩ : Vec3 ℚ).mul
          (Algebra.CIToPlane (⟨1, 5, 2⟩ : Vec3 ℚ) ⟨0, 2, 0⟩ ⟨0, 1, 0⟩).distance))
        ⟨0, 2, 0⟩ ⟨0, 1, 0⟩ := by
  have h := CIToPlane_signed_distance (⟨1, 5, 2⟩ : Vec3 ℚ) ⟨0, 2, 0⟩ ⟨0, 1, 0⟩
  refine ⟨?_, (h.2.2.2.2 (by norm_num [Vec3.dot])).1⟩
  rw [h.1]
  norm_num [Vec3.sub, Vec3.dot]

/-- C12: when a teammate exists (`r` is the first robot of `game.robots` with
`is_teammate` set and an id other than `me.id`) and the square root is exact at the two
squared distances, `isICloserToBall` returns true if and only if the Euclidean distance
`dm` from `me` to the ball (the non-negative number whose square is the squared distance)
is at most the Euclidean distance `dr` from `r` to the ball, and false if and only if
`dr < dm`; in particular it returns true when the two distances are equal.  Equivalently,
it returns true exactly when the squared distance of `me` is at most that of `r`. -/
theorem isICloserToBall_iff (me : Robot K) (game : Game K) (r : Robot K)
    (h : game.robots.find? (isMateOf me) = some r)
    (h1 : SqrtExact (distSq (Algebra.locationBall game.ball) (Algebra.locationRobot me)))
    (h2 : SqrtExact (distSq (Algebra.locationBall game.ball) (Algebra.locationRobot r))) :
    (∀ dm dr : K,
        0 ≤ dm → dm * dm = distSq (Algebra.locationRobot me) (Algebra.locationBall game.ball) →
        0 ≤ dr → dr * dr = distSq (Algebra.locationRobot r) (Algebra.locationBall game.ball) →
        (Algebra.isICloserToBall me game = Outcome.value true ↔ dm ≤ dr) ∧
          (Algebra.isICloserToBall me game = Outcome.value false ↔ dr < dm) ∧
          (dm = dr → Algebra.isICloserToBall me game = Outcome.value true)) ∧
      (Algebra.isICloserToBall me game = Outcome.value true ↔
        distSq (Algebra.locationRobot me) (Algebra.locationBall game.ball) ≤
          distSq (Algebra.locationRobot r) (Algebra.locationBall game.ball)) := by
  have hm : Algebra.mate me game = Outcome.value r := by
    unfold Algebra.mate
    rw [mateFrom_eq_find, h]
  have key : ∀ dm dr : K,
      0 ≤ dm → dm * dm = distSq (Algebra.locationRobot me) (Algebra.locationBall game.ball) →
      0 ≤ dr → dr * dr = distSq (Algebra.locationRobot r) (Algebra.locationBall game.ball) →
      Algebra.isICloserToBall me game = Outcome.value (decide (dm ≤ dr)) := by
    intro dm dr hdm em hdr er
    rw [distSq_comm] at em er
    unfold Algebra.isICloserToBall
    rw [hm]
    simp only [Algebra.distanceToBall, distanceTo_eq_of_sq _ _ h1 dm hdm em,
      distanceTo_eq_of_sq _ _ h2 dr hdr er]
  constructor
  · intro dm dr hdm em hdr er
    rw [key dm dr hdm em hdr er]
    refine ⟨?_, ?_, ?_⟩
    · constructor
      · intro e
        exact of_decide_eq_true (Outcome.value.inj e)
      · intro e
        rw [decide_eq_true e]
    · constructor
      · intro e
        exact not_le.mp (of_decide_eq_false (Outcome.value.inj e))
      · intro e
        rw [decide_eq_false (not_le.mpr e)]
    · intro e
      rw [decide_eq_true e.le]
  · have em : HasSqrt.sqrt (distSq (Algebra.locationBall game.ball) (Algebra.locationRobot me))
        * HasSqrt.sqrt (distSq (Algebra.locationBall game.ball) (Algebra.locationRobot me))
        = distSq (Algebra.locationRobot me) (Algebra.locationBall game.ball) := by
      rw [h1.2, distSq_comm]
    have er : HasSqrt.sqrt (distSq (Algebra.locationBall game.ball) (Algebra.locationRobot r))
        * HasSqrt.sqrt (distSq (Algebra.locationBall game.ball) (Algebra.locationRobot r))
        = distSq (Algebra.locationRobot r) (Algebra.locationBall game.ball) := by
      rw [h2.2, distSq_comm]
    rw [key _ _ h1.1 em h2.1 er, ← em, ← er]
    constructor
    · intro e
      exact mul_self_le_mul_self h1.1 (of_decide_eq_true (Outcome.value.inj e))
    · intro e
      rw [decide_eq_true ((mul_self_le_mul_self_iff h1.1 h2.1).mpr e)]

/-- C12, evaluated in `game0`, where `me0` is 5 and `mate0` is 10 away from the ball: for
`me0`, whose teammate is `mate0`, `isICloserToBall` returns true; for `mate0`, whose
teammate is `me0`, it returns false. -/
theorem isICloserToBall_iff_witness :
    (game0.robots.find? (isMateOf me0) = some mate0 ∧
        SqrtExact (distSq (Algebra.locationBall game0.ball) (Algebra.locationRobot me0)) ∧
        SqrtExact (distSq (Algebra.locationBall game0.ball) (Algebra.locationRobot mate0))) ∧
      Algebra.isICloserToBall me0 game0 = Outcome.value true ∧
      Algebra.isICloserToBall mate0 game0 = Outcome.value false := by
  have h1 : SqrtExact (distSq (Algebra.locationBall game0.ball) (Algebra.locationRobot me0)) := by
    rw [distSq_me0]
    exact sqrtExact_rat_mul_self 5 (by norm_num)
  have h2 : SqrtExact
      (distSq (Algebra.locationBall game0.ball) (Algebra.locationRobot mate0)) := by
    rw [distSq_mate0]
    exact sqrtExact_rat_mul_self 10 (by norm_num)
  have e1 : (5 : ℚ) * 5 = distSq (Algebra.locationRobot me0) (Algebra.locationBall game0.ball) := by
    rw [distSq_comm, distSq_me0]
  have e2 : (10 : ℚ) * 10
      = distSq (Algebra.locationRobot mate0) (Algebra.locationBall game0.ball) := by
    rw [distSq_comm, distSq_mate0]
  refine ⟨⟨find_mate_game0, h1, h2⟩, ?_, ?_⟩
  · exact ((isICloserToBall_iff me0 game0 mate0 find_mate_game0 h1 h2).1 5 10 (by norm_num) e1
      (by norm_num) e2).1.mpr (by norm_num)
  · exact ((isICloserToBall_iff mate0 game0 me0 find_mate_of_mate0 h2 h1).1 10 5 (by norm_num) e2
      (by norm_num) e1).2.1.mpr (by norm_num)

/-- C13, the code at a snapshot without a teammate: in `gameAlone` no robot has
`is_teammate` set and an id other than that of `me0`, and `mate` runs off the end of the
function; it signals no failure. -/
theorem mate_without_teammate :
    gameAlone.robots.find? (isMateOf me0) = none ∧
      Algebra.mate me0 gameAlone = Outcome.undefined ∧
      Algebra.mate me0 gameAlone ≠ Outcome.failure := by
  have h : gameAlone.robots.find? (isMateOf me0) = none := by
    simp [gameAlone, isMateOf, opp0, me0, List.find?]
  have hm : Algebra.mate me0 gameAlone = Outcome.undefined := by
    unfold Algebra.mate
    rw [mateFrom_eq_find, h]
  refine ⟨h, hm, ?_⟩
  rw [hm]
  exact fun e => Outcome.noConfusion e

/-- C14 fails as stated: `normalize` on the zero vector, whose norm is 0, signals no
failure; it returns a vector value, the quotients `0 / 0` of the division by that zero
norm, all NaN. -/
theorem normalize_zero_counterexample :
    (Vec3.zero : Vec3 ℚ).norm = 0 ∧
      (Vec3.zero : Vec3 ℚ).normalizeIeee =
        Outcome.value ⟨IeeeValue.nan, IeeeValue.nan, IeeeValue.nan⟩ ∧
      (Vec3.zero : Vec3 ℚ).normalizeIeee ≠ Outcome.failure := by
  have h : (Vec3.zero : Vec3 ℚ).normalizeIeee =
      Outcome.value ⟨IeeeValue.nan, IeeeValue.nan, IeeeValue.nan⟩ := by
    unfold Vec3.normalizeIeee
    rw [norm_zero_rat]
    simp [Vec3.divIeee, ieeeDiv, Vec3.zero]
  refine ⟨norm_zero_rat, h, ?_⟩
  rw [h]
  exact fun e => Outcome.noConfusion e

/-- C14, amended: `normalize` has no check on the norm and signals no failure; applied to
a vector of zero norm it returns the vector of the quotients of the components by that
zero norm, none of them finite: NaN for a zero component, `+inf` for a positive and
`-inf` for a negative one. -/
theorem normalize_of_norm_zero (v : Vec3 K) (h : v.norm = 0) :
    v.normalizeIeee =
        Outcome.value
          ⟨if 0 < v.x then IeeeValue.posInf
              else if v.x < 0 then IeeeValue.negInf else IeeeValue.nan,
            if 0 < v.y then IeeeValue.posInf
              else if v.y < 0 then IeeeValue.negInf else IeeeValue.nan,
            if 0 < v.z then IeeeValue.posInf
              else if v.z < 0 then IeeeValue.negInf else IeeeValue.nan⟩ ∧
      v.normalizeIeee ≠ Outcome.failure ∧
      ∀ q : Vec3 (IeeeValue K), v.normalizeIeee = Outcome.value q →
        ∀ y : K, q.x ≠ IeeeValue.finite y ∧ q.y ≠ IeeeValue.finite y ∧
          q.z ≠ IeeeValue.finite y := by
  refine ⟨?_, ?_, ?_⟩
  · simp only [Vec3.normalizeIeee, Vec3.divIeee, ieeeDiv, h, ne_eq, not_true_eq_false,
      if_false]
  · exact fun e => Outcome.noConfusion e
  · intro q hq y
    have e : q = v.divIeee 0 := by
      have := Outcome.value.inj hq
      rw [h] at this
      exact this.symm
    rw [e]
    exact ⟨ieeeDiv_zero_not_finite _ _, ieeeDiv_zero_not_finite _ _,
      ieeeDiv_zero_not_finite _ _⟩

/-- C14 amended, evaluated at the zero vector: all three quotients are NaN. -/
theorem normalize_of_norm_zero_witness :
    (Vec3.zero : Vec3 ℚ).norm = 0 ∧
      ∀ q : Vec3 (IeeeValue ℚ), (Vec3.zero : Vec3 ℚ).normalizeIeee = Outcome.value q →
        ∀ y : ℚ, q.x ≠ IeeeValue.finite y ∧ q.y ≠ IeeeValue.finite y ∧
          q.z ≠ IeeeValue.finite y :=
  ⟨norm_zero_rat, (normalize_of_norm_zero Vec3.zero norm_zero_rat).2.2⟩

/-- C15: for a vector `v` of non-zero norm, `normalize(v)` is `v` divided by `norm(v)`; it
has norm exactly 1 and the direction of `v`: `normalize(v) * norm(v) = v`. -/
theorem normalize_unit (v : Vec3 K) (hn : v.norm ≠ 0)
    (h1 : SqrtExact (v.dot v)) (h2 : SqrtExact (v.normalize.dot v.normalize)) :
    v.normalize = v.div v.norm ∧ v.normalize.norm = 1 ∧ v.normalize.mul v.norm = v := by
  have hsq : v.norm * v.norm = v.x * v.x + v.y * v.y + v.z * v.z := h1.2
  refine ⟨rfl, ?_, ?_⟩
  · refine norm_eq_of_dot_self_eq _ 1 zero_le_one h2 ?_
    simp only [Vec3.normalize, Vec3.div, Vec3.dot]
    field_simp
    rw [hsq]
  · simp only [Vec3.normalize, Vec3.div, Vec3.mul]
    ext <;> simp only <;> field_simp

/-- C15, evaluated: `(3, 0, 4)` has norm 5 and normalizes to `(3/5, 0, 4/5)`. -/
theorem normalize_unit_witness :
    (⟨3, 0, 4⟩ : Vec3 ℚ).norm ≠ 0 ∧ (⟨3, 0, 4⟩ : Vec3 ℚ).normalize.norm = 1 := by
  have n : (⟨3, 0, 4⟩ : Vec3 ℚ).norm = 5 := by
    unfold Vec3.norm
    norm_num
    rw [show (25 : ℚ) = 5 * 5 by norm_num]
    exact sqrt_rat_mul_self 5 (by norm_num)
  have hn : (⟨3, 0, 4⟩ : Vec3 ℚ).norm ≠ 0 := by
    rw [n]
    norm_num
  have h1 : SqrtExact ((⟨3, 0, 4⟩ : Vec3 ℚ).dot ⟨3, 0, 4⟩) := by
    have e : (⟨3, 0, 4⟩ : Vec3 ℚ).dot ⟨3, 0, 4⟩ = 5 * 5 := by
      norm_num [Vec3.dot]
    rw [e]
    exact sqrtExact_rat_mul_self 5 (by norm_num)
  have h2 : SqrtExact ((⟨3, 0, 4⟩ : Vec3 ℚ).normalize.dot (⟨3, 0, 4⟩ : Vec3 ℚ).normalize) := by
    have e : (⟨3, 0, 4⟩ : Vec3 ℚ).normalize.dot (⟨3, 0, 4⟩ : Vec3 ℚ).normalize = 1 * 1 := by
      simp only [Vec3.normalize, n, Vec3.div, Vec3.dot]
      norm_num
    rw [e]
    exact sqrtExact_rat_mul_self 1 (by norm_num)
  exact ⟨hn, (normalize_unit _ hn h1 h2).2.1⟩

/-- C16 fails as stated: the non-zero vector `(1/100, 0, 0)` is maximized to
`(10, 0, 0)`, of norm 10, which does not exceed `MAX_ENTITY_SPEED = 100`; it is what `goTo`
writes for `me0` and a target `1/100` away from it. -/
theorem maximize_counterexample :
    (⟨1 / 100, 0, 0⟩ : Vec3 ℚ) ≠ Vec3.zero ∧
      ¬ (consts0.MAX_ENTITY_SPEED < (⟨1 / 100, 0, 0⟩ : Vec3 ℚ).maximize.norm) ∧
      (⟨301 / 100, 1, 4⟩ : Vec3 ℚ) ≠ Algebra.locationRobot me0 ∧
      Algebra.goTo me0 action0 ⟨301 / 100, 1, 4⟩ = ⟨10, 0, 0, 0⟩ := by
  refine ⟨?_, ?_, ?_, ?_⟩
  · intro h
    have hx := congrArg Vec3.x h
    norm_num [Vec3.zero] at hx
  · have n : (⟨1 / 100, 0, 0⟩ : Vec3 ℚ).maximize.norm = 10 := by
      unfold Vec3.norm Vec3.maximize
      norm_num
      rw [show (100 : ℚ) = 10 * 10 by norm_num]
      exact sqrt_rat_mul_self 10 (by norm_num)
    rw [n]
    norm_num [consts0]
  · intro h
    have hx := congrArg Vec3.x h
    norm_num [Algebra.locationRobot, me0] at hx
  · simp only [Algebra.goTo, Algebra.setVelocity, Algebra.locationRobot, Vec3.sub,
      Vec3.maximize, me0, action0]
    norm_num

/-- C16, amended: `maximize(v)` is `v * 1000`: it keeps the direction of `v` and has
norm `1000 * norm(v)`, which exceeds `MAX_ENTITY_SPEED` exactly when `norm(v)` exceeds
`MAX_ENTITY_SPEED / 1000`; `goTo` writes `maximize(target - position of me)` and
`goToBall` writes `maximize` of the ground vector to the ball as the target velocity. -/
theorem maximize_norm (consts : Consts K) (me : Robot K) (game : Game K) (action : Action K)
    (d v : Vec3 K) (h1 : SqrtExact (v.dot v)) (h2 : SqrtExact (v.maximize.dot v.maximize)) :
    v.maximize = v.mul 1000 ∧ v.maximize.norm = 1000 * v.norm ∧
      (consts.MAX_ENTITY_SPEED < v.maximize.norm ↔ consts.MAX_ENTITY_SPEED / 1000 < v.norm) ∧
      (⟨(Algebra.goTo me action d).target_velocity_x,
          (Algebra.goTo me action d).target_velocity_y,
          (Algebra.goTo me action d).target_velocity_z⟩ : Vec3 K)
        = (d.sub (Algebra.locationRobot me)).maximize ∧
      (⟨(Algebra.goToBall me game action).target_velocity_x,
          (Algebra.goToBall me game action).target_velocity_y,
          (Algebra.goToBall me game action).target_velocity_z⟩ : Vec3 K)
        = (Algebra.toBallGroundVector me game).maximize := by
  have hn : v.maximize.norm = 1000 * v.norm := by
    refine norm_eq_of_dot_self_eq _ _ (mul_nonneg (by norm_num) h1.1) h2 ?_
    have hsq : v.norm * v.norm = v.dot v := h1.2
    rw [maximize_dot_self, ← hsq]
    ring
  refine ⟨rfl, hn, ?_, rfl, rfl⟩
  rw [hn, div_lt_iff₀ (by norm_num : (0 : K) < 1000), mul_comm]

/-- C16 amended, evaluated: `(3, 0, 4)`, of norm 5, is maximized to a vector of norm 5000. -/
theorem maximize_norm_witness :
    (⟨3, 0, 4⟩ : Vec3 ℚ).maximize.norm = 1000 * (⟨3, 0, 4⟩ : Vec3 ℚ).norm := by
  have h1 : SqrtExact ((⟨3, 0, 4⟩ : Vec3 ℚ).dot ⟨3, 0, 4⟩) := by
    have e : (⟨3, 0, 4⟩ : Vec3 ℚ).dot ⟨3, 0, 4⟩ = 5 * 5 := by
      norm_num [Vec3.dot]
    rw [e]
    exact sqrtExact_rat_mul_self 5 (by norm_num)
  have h2 : SqrtExact ((⟨3, 0, 4⟩ : Vec3 ℚ).maximize.dot (⟨3, 0, 4⟩ : Vec3 ℚ).maximize) := by
    have e : (⟨3, 0, 4⟩ : Vec3 ℚ).maximize.dot (⟨3, 0, 4⟩ : Vec3 ℚ).maximize = 5000 * 5000 := by
      norm_num [Vec3.dot, Vec3.maximize]
    rw [e]
    exact sqrtExact_rat_mul_self 5000 (by norm_num)
  exact (maximize_norm consts0 me0 game0 action0 Vec3.zero ⟨3, 0, 4⟩ h1 h2).2.1

/-- C17 fails as stated: on an empty prediction buffer (a default-constructed
`std::vector<Prediction>`, as `MyStrategy` declares it) the index `ct = 7 / 2 + 1 = 4` is
outside the buffer, and `predictBall` writes no entry: the access `predictions[ct]` is
undefined. -/
theorem predictBall_counterexample :
    Algebra.predictBall consts0 2 rules0 game0 [] 1 1 2 = Outcome.undefined ∧
      ¬ ∃ out : List (Prediction ℚ),
        Algebra.predictBall consts0 2 rules0 game0 [] 1 1 2 = Outcome.value (game0, out) := by
  have h : Algebra.predictBall consts0 2 rules0 game0 [] 1 1 2 = Outcome.undefined := by
    simp [Algebra.predictBall]
  refine ⟨h, ?_⟩
  rintro ⟨out, e⟩
  rw [h] at e
  exact Outcome.noConfusion e

/-- C17, amended: when `TICK_DT` is not zero and `ct = current_tick / TICK_DT + 1` is an
index of the buffer, `predictBall` writes exactly the entry `predictions[ct]`: it receives
the state obtained from the ball's position and velocity by `move` with sub-tick
`dt * TICK_DT / TICKS_PER_SECOND` followed by `collideArena`; every other entry, the
length of the buffer and the game snapshot are unchanged. -/
theorem predictBall_frame (consts : Consts K) (TICK_DT : Int) (rules : Rules K)
    (game : Game K) (predictions : List (Prediction K)) (dt time radius0 : K)
    (hT : TICK_DT ≠ 0) (h0 : 0 ≤ Int.tdiv game.current_tick TICK_DT + 1)
    (hlt : (Int.tdiv game.current_tick TICK_DT + 1).toNat < predictions.length) :
    ∃ out : List (Prediction K),
      Algebra.predictBall consts TICK_DT rules game predictions dt time radius0
          = Outcome.value (game, out) ∧
        out.length = predictions.length ∧
        out[(Int.tdiv game.current_tick TICK_DT + 1).toNat]? =
          some (Algebra.collideArena rules
            (Algebra.move consts
              ⟨Algebra.locationBall game.ball, Algebra.velocityBall game.ball, radius0⟩
              game.ball (dt * (TICK_DT : K) / rules.TICKS_PER_SECOND))
            game.ball) ∧
        ∀ i : Nat, i ≠ (Int.tdiv game.current_tick TICK_DT + 1).toNat →
          out[i]? = predictions[i]? := by
  refine ⟨predictions.set (Int.tdiv game.current_tick TICK_DT + 1).toNat
    (Algebra.collideArena rules
      (Algebra.move consts
        ⟨Algebra.locationBall game.ball, Algebra.velocityBall game.ball, radius0⟩
        game.ball (dt * (TICK_DT : K) / rules.TICKS_PER_SECOND))
      game.ball), ?_, ?_, ?_, ?_⟩
  · unfold Algebra.predictBall
    rw [if_neg hT]
    exact if_pos ⟨h0, hlt⟩
  · exact List.length_set _ _ _
  · exact List.getElem?_set_self hlt
  · intro i hi
    exact List.getElem?_set_ne (Ne.symm hi)

/-- C17 amended, evaluated: at tick 7 with `TICK_DT = 2` the index is 4, inside `buffer0`, and
`predictBall` returns the unchanged `game0` with a buffer of the same length. -/
theorem predictBall_frame_witness :
    ((2 : Int) ≠ 0 ∧ 0 ≤ Int.tdiv game0.current_tick 2 + 1 ∧
        (Int.tdiv game0.current_tick 2 + 1).toNat < buffer0.length) ∧
      ∃ out : List (Prediction ℚ),
        Algebra.predictBall consts0 2 rules0 game0 buffer0 1 1 2 = Outcome.value (game0, out) ∧
          out.length = buffer0.length := by
  have hT : (2 : Int) ≠ 0 := by decide
  have h0 : 0 ≤ Int.tdiv game0.current_tick 2 + 1 := by decide
  have hlt : (Int.tdiv game0.current_tick 2 + 1).toNat < buffer0.length := by decide
  obtain ⟨out, h1, h2, _⟩ := predictBall_frame consts0 2 rules0 game0 buffer0 1 1 2 hT h0 hlt
  exact ⟨⟨hT, h0, hlt⟩, out, h1, h2⟩

/-- C18: the normal returned by `CIToArena` is one of the six axis vectors and has norm
exactly 1; its x-component never has the sign of `p.x` and its z-component never has the
sign of `p.z`. -/
theorem CIToArena_normal_axis (rules : Rules K) (p : Vec3 K) (h1 : SqrtExact (1 : K)) :
    (Algebra.CIToArena rules p).normal ∈
        [(⟨0, 1, 0⟩ : Vec3 K), ⟨0, -1, 0⟩, ⟨-1, 0, 0⟩, ⟨1, 0, 0⟩, ⟨0, 0, -1⟩, ⟨0, 0, 1⟩] ∧
      (Algebra.CIToArena rules p).normal.norm = 1 ∧
      ¬ (0 < (Algebra.CIToArena rules p).normal.x ∧ 0 < p.x) ∧
      ¬ ((Algebra.CIToArena rules p).normal.x < 0 ∧ p.x < 0) ∧
      ¬ (0 < (Algebra.CIToArena rules p).normal.z ∧ 0 < p.z) ∧
      ¬ ((Algebra.CIToArena rules p).normal.z < 0 ∧ p.z < 0) := by
  have hu : (Algebra.CIToArena rules p).normal.norm = 1 := by
    refine norm_eq_of_dot_self_eq _ 1 zero_le_one ?_ ?_
    · rw [ciToArena_normal_unit]
      exact h1
    · rw [ciToArena_normal_unit, one_mul]
  refine ⟨?_, hu, ?_⟩
  · rcases ciToArena_normal_cases rules p with h | h | h | h | h | h
    · simp [h]
    · simp [h]
    · simp [h.1]
    · simp [h.1]
    · simp [h.1]
    · simp [h.1]
  · rcases ciToArena_normal_cases rules p with h | h | ⟨h, hs⟩ | ⟨h, hs⟩ | ⟨h, hs⟩ | ⟨h, hs⟩
    · rw [h]
      simp
    · rw [h]
      simp
    · rw [h]
      exact ⟨by simp, by simpa using hs, by simp, by simp⟩
    · rw [h]
      exact ⟨by simpa using hs.le, by simp, by simp, by simp⟩
    · rw [h]
      exact ⟨by simp, by simp, by simp, by simpa using hs⟩
    · rw [h]
      exact ⟨by simp, by simp, by simpa using hs.le, by simp⟩

/-- C18, evaluated: at `(-29, 5, 3)` in `arena0` the normal has norm 1. -/
theorem CIToArena_normal_axis_witness :
    SqrtExact (1 : ℚ) ∧ (Algebra.CIToArena rules0 ⟨-29, 5, 3⟩).normal.norm = 1 := by
  have h1 : SqrtExact (1 : ℚ) := by
    rw [show (1 : ℚ) = 1 * 1 by norm_num]
    exact sqrtExact_rat_mul_self 1 (by norm_num)
  exact ⟨h1, (CIToArena_normal_axis rules0 ⟨-29, 5, 3⟩ h1).2.1⟩

/-- C19: when the penetration `radius - CIToArena(p).distance` is not positive,
`collideArena` returns `p` unchanged; when it is positive but the velocity component
along the normal is non-negative, the velocity is unchanged and the position is pushed
out. -/
theorem collideArena_noop (rules : Rules K) (p : Prediction K) (b : Ball K) :
    (b.radius - (Algebra.CIToArena rules p.position).distance ≤ 0 →
        Algebra.collideArena rules p b = p) ∧
      (0 < b.radius - (Algebra.CIToArena rules p.position).distance →
        0 ≤ p.velocity.dot (Algebra.CIToArena rules p.position).normal →
        (Algebra.collideArena rules p b).velocity = p.velocity ∧
          (Algebra.collideArena rules p b).position =
            p.position.add ((Algebra.CIToArena rules p.position).normal.mul
              (b.radius - (Algebra.CIToArena rules p.position).distance))) := by
  constructor
  · intro h
    exact collideArena_of_not_pos rules p b (not_lt.mpr h)
  · intro h hv
    refine ⟨?_, (collideArena_of_pos rules p b h).1⟩
    rw [(collideArena_of_pos rules p b h).2, if_neg (not_lt.mpr hv)]

/-- C19, evaluated: `predMax`, in mid-air, is not touched by `collideArena`. -/
theorem collideArena_noop_witness :
    ball0.radius - (Algebra.CIToArena rules0 predMax.position).distance ≤ 0 ∧
      Algebra.collideArena rules0 predMax ball0 = predMax := by
  have hc : Algebra.CIToArena rules0 predMax.position = ⟨10, ⟨0, 1, 0⟩⟩ := by
    simp [Algebra.CIToArena, Algebra.CIToArenaQ, Algebra.CIToPlane, CI.min, Vec3.sub, Vec3.dot,
      Vec3.zero, rules0, arena0, predMax]
    norm_num
  have h : ball0.radius - (Algebra.CIToArena rules0 predMax.position).distance ≤ 0 := by
    rw [hc]
    norm_num [ball0]
  exact ⟨h, (collideArena_noop rules0 predMax ball0).1 h⟩

/-- C20: for a restitution coefficient in `[0, 1]` the speed after `collideArena` is at
most the speed before, with equality when no reflection is applied and when
`BALL_ARENA_E = 1`; after a reflection the velocity is not directed into the surface. -/
theorem collideArena_no_speed_gain (rules : Rules K) (p : Prediction K) (b : Ball K)
    (hE0 : 0 ≤ rules.BALL_ARENA_E) (hE1 : rules.BALL_ARENA_E ≤ 1)
    (h1 : SqrtExact (p.velocity.dot p.velocity))
    (h2 : SqrtExact ((Algebra.collideArena rules p b).velocity.dot
      (Algebra.collideArena rules p b).velocity)) :
    (Algebra.collideArena rules p b).velocity.norm ≤ p.velocity.norm ∧
      (¬ (0 < b.radius - (Algebra.CIToArena rules p.position).distance ∧
          p.velocity.dot (Algebra.CIToArena rules p.position).normal < 0) →
        (Algebra.collideArena rules p b).velocity.norm = p.velocity.norm) ∧
      (rules.BALL_ARENA_E = 1 →
        (Algebra.collideArena rules p b).velocity.norm = p.velocity.norm) ∧
      (0 < b.radius - (Algebra.CIToArena rules p.position).distance →
        p.velocity.dot (Algebra.CIToArena rules p.position).normal < 0 →
        0 ≤ (Algebra.collideArena rules p b).velocity.dot
          (Algebra.CIToArena rules p.position).normal) := by
  refine ⟨?_, ?_, ?_, ?_⟩
  · refine norm_le_of_dot_self_le _ _ h1.1 h2 ?_
    have hsq : p.velocity.norm * p.velocity.norm = p.velocity.dot p.velocity := h1.2
    rw [hsq]
    exact collideArena_dot_self_le rules p b hE0 hE1
  · intro hno
    rw [collideArena_velocity_of_not_reflect rules p b hno]
  · intro hE
    by_cases hr : 0 < b.radius - (Algebra.CIToArena rules p.position).distance ∧
        p.velocity.dot (Algebra.CIToArena rules p.position).normal < 0
    · have e := collideArena_dot_self_of_reflect rules p b hr.1 hr.2
      rw [hE] at e
      have e2 : (Algebra.collideArena rules p b).velocity.dot
          (Algebra.collideArena rules p b).velocity = p.velocity.dot p.velocity := by
        rw [e]
        ring
      unfold Vec3.norm
      exact congrArg HasSqrt.sqrt e2
    · rw [collideArena_velocity_of_not_reflect rules p b hr]
  · intro hp hv
    have hvel := (collideArena_of_pos rules p b hp).2
    rw [if_pos hv] at hvel
    have hu := ciToArena_normal_unit rules p.position
    have hdot : (Algebra.collideArena rules p b).velocity.dot
        (Algebra.CIToArena rules p.position).normal
          = -rules.BALL_ARENA_E *
            p.velocity.dot (Algebra.CIToArena rules p.position).normal := by
      rw [hvel]
      simp only [Vec3.dot, Vec3.sub, Vec3.mul] at hu ⊢
      linear_combination
        (-(1 + rules.BALL_ARENA_E) *
          (p.velocity.x * (Algebra.CIToArena rules p.position).normal.x +
            p.velocity.y * (Algebra.CIToArena rules p.position).normal.y +
            p.velocity.z * (Algebra.CIToArena rules p.position).normal.z)) * hu
    rw [hdot]
    nlinarith

/-- C20, evaluated: `predBounce` hits the floor at speed 26 and leaves it at speed 25. -/
theorem collideArena_no_speed_gain_witness :
    (0 ≤ rules0.BALL_ARENA_E ∧ rules0.BALL_ARENA_E ≤ 1) ∧
      (Algebra.collideArena rules0 predBounce ball0).velocity.norm
        ≤ predBounce.velocity.norm := by
  have hE0 : 0 ≤ rules0.BALL_ARENA_E := by norm_num [rules0]
  have hE1 : rules0.BALL_ARENA_E ≤ 1 := by norm_num [rules0]
  have h1 : SqrtExact (predBounce.velocity.dot predBounce.velocity) := by
    have e : predBounce.velocity.dot predBounce.velocity = (26 : ℚ) * 26 := by
      norm_num [Vec3.dot, predBounce]
    rw [e]
    exact sqrtExact_rat_mul_self 26 (by norm_num)
  have h2 : SqrtExact ((Algebra.collideArena rules0 predBounce ball0).velocity.dot
      (Algebra.collideArena rules0 predBounce ball0).velocity) := by
    have e : (Algebra.collideArena rules0 predBounce ball0).velocity.dot
        (Algebra.collideArena rules0 predBounce ball0).velocity = (25 : ℚ) * 25 := by
      rw [collideArena_predBounce]
      norm_num [Vec3.dot]
    rw [e]
    exact sqrtExact_rat_mul_self 25 (by norm_num)
  exact ⟨⟨hE0, hE1⟩, (collideArena_no_speed_gain rules0 predBounce ball0 hE0 hE1 h1 h2).1⟩

end Claims
end RLAlgebra
